import Mathlib

/-!
Server tick simulation of the slither game (`src/src/gameLogic.js`, `src/src/server.js`).

A shallow embedding of the authoritative server simulation.

Numbers: JavaScript numbers are embedded as elements of a linearly ordered field `K` with a
floor function (`ℚ` for evaluation, `ℝ` for the idealised statements).  Arithmetic is exact:
rounding, `NaN` and infinities of IEEE doubles are outside the embedding.

Library functions and sources of nondeterminism (`Math.PI`, `Math.sqrt`, `Math.cos`, `Math.sin`,
`Math.atan2`, `Math.pow`, `Math.random`, `Date.now`) are fields of an environment `Env K`.
`Math.random()` and `Date.now()` are oracles indexed by the number of oracle reads made so far,
which the world state counts in `calls`.

The `players` object is an association list of snakes keyed by `Snake.id` in insertion order
(`players[k] = createSnake(k, ..)` is the only way an entry is written, so key and `id` agree).
-/

namespace Slither

/-! ## Game constants (`gameLogic.js` lines 1-33) -/

def GAME_WORLD_WIDTH : Nat := 2000
def GAME_WORLD_HEIGHT : Nat := 2000
def PLAYER_INITIAL_SPEED : Nat := 6
def PLAYER_BOOST_SPEED_MULTIPLIER : Nat := 2
def SNAKE_INITIAL_LENGTH : Nat := 10
def SNAKE_SEGMENT_DISTANCE : Nat := 8
def SNAKE_BASE_SIZE : Nat := 16
def FOOD_RADIUS_MIN : Nat := 5
def FOOD_RADIUS_MAX : Nat := 10
def MAX_FOOD_ITEMS : Nat := 500
def MIN_BOTS : Nat := 5
def MAX_TOTAL_SNAKES : Nat := 10
def SNAKE_BODY_IMAGE_COUNT : Nat := 13

def BOT_NAMES : List String :=
  ["Byte", "Pixel", "Vector", "Glitch", "Syntax", "Kernel", "Cipher", "Render", "Vertex",
   "Shader", "Algo", "Recursion", "Stack", "Heap", "Pointer"]

/-! ## Data model -/

/-- A segment position `{x, y}`. -/
structure Point (K : Type) where
  x : K
  y : K
deriving DecidableEq

/-- A food item as built by `createFoodItem`. -/
structure Food (K : Type) where
  id : String
  x : K
  y : K
  size : K
  color : String
  value : K
deriving DecidableEq

/-- A snake object as built by `createSnake`. -/
structure Snake (K : Type) where
  id : String
  name : String
  x : K
  y : K
  angle : K
  targetAngle : K
  speed : K
  boosting : Bool
  score : K
  segments : List (Point K)
  color : String
  bodyImageIndex : Int
  alive : Bool
  isBot : Bool
  sizeMultiplier : K
  targetLength : K
  boostCooldown : K
  lastBoostDrop : K
deriving DecidableEq

/-- Entry of `stateToBroadcast.food`. -/
structure FoodView (K : Type) where
  id : String
  x : K
  y : K
  size : K
  color : String
deriving DecidableEq

/-- Entry of `stateToBroadcast.players`. -/
structure PlayerView (K : Type) where
  id : String
  name : String
  x : K
  y : K
  segments : List (Point K)
  color : String
  bodyImageIndex : Int
  score : K
  sizeMultiplier : K
  angle : K
  isBot : Bool
  boosting : Bool
deriving DecidableEq

/-- Messages passed to `io.emit` by `gameLoop`. -/
inductive Event (K : Type) where
  | playerDied (id : String) (killerId : Option String) (killerName : String) (score : K)
  | gameState (players : List (PlayerView K)) (food : List (FoodView K))
deriving DecidableEq

/-- The JavaScript library functions and oracles the simulation calls. -/
structure Env (K : Type) where
  pi : K
  sqrt : K → K
  cos : K → K
  sin : K → K
  atan2 : K → K → K
  pow : K → K → K
  random : Nat → K
  dateNow : Nat → K
  foodIdOf : K → K → String

/-- Module state of `gameLogic.js` (`players`, `foodItems`, `botCounter`), the oracle read
counter and the log of emitted events. -/
structure World (K : Type) where
  players : List (Snake K)
  foodItems : List (Food K)
  botCounter : Nat
  calls : Nat
  events : List (Event K)

section Defs

variable {K : Type} [LinearOrderedField K] [FloorRing K]

def GAME_TICK_RATE : K := 1000 / 30

/-- `Math.floor` as a number. -/
def jsFloor (a : K) : K := ((⌊a⌋ : Int) : K)

/-- `Math.round`: the nearest integer, ties towards plus infinity. -/
def jsRound (a : K) : K := ((⌊a + 1 / 2⌋ : Int) : K)

/-- `Math.hypot(a, b)`. -/
def hypot (sqrt : K → K) (a b : K) : K := sqrt (a * a + b * b)

/-! ### The `players` object -/

/-- `players[id]`. -/
def lookup (ps : List (Snake K)) (id : String) : Option (Snake K) :=
  ps.find? (fun p => p.id == id)

/-- `players[s.id] = s`: replaces the entry in place, or appends a new key. -/
def setPlayer : List (Snake K) → Snake K → List (Snake K)
  | [], s => [s]
  | p :: ps, s => if p.id == s.id then s :: ps else p :: setPlayer ps s

/-- `delete players[id]`. -/
def deletePlayer (ps : List (Snake K)) (id : String) : List (Snake K) :=
  ps.filter (fun p => !(p.id == id))

/-! ### Heading integration (lines 183-186) -/

/-- `while (angleDiff < -Math.PI) angleDiff += 2 * Math.PI;` run with a bound on the number of
loop tests; `none` when the bound is reached. -/
def wrapUp (pi : K) : Nat → K → Option K
  | 0, _ => none
  | n + 1, d => if d < -pi then wrapUp pi n (d + 2 * pi) else some d

/-- `while (angleDiff > Math.PI) angleDiff -= 2 * Math.PI;` run with a bound on the number of
loop tests; `none` when the bound is reached. -/
def wrapDown (pi : K) : Nat → K → Option K
  | 0, _ => none
  | n + 1, d => if d > pi then wrapDown pi n (d - 2 * pi) else some d

/-- Lines 183-185 with a bound on loop tests. -/
def angleDiffFuel (pi : K) (fuel : Nat) (current target : K) : Option K :=
  (wrapUp pi fuel (target - current)).bind (wrapDown pi fuel)

/-- A number of loop tests that is enough for both loops started from `d` (see
`angleDiffFuel_spec`). -/
def wrapFuel (pi d : K) : Nat := ⌈|d| / (2 * pi)⌉₊ + 2

/-- Lines 183-185 as a total function: the loops run with `wrapFuel` tests. -/
def angleDiff (pi current target : K) : K :=
  (angleDiffFuel pi (wrapFuel pi (target - current)) current target).getD (target - current)

/-- Lines 183-186: `player.angle += angleDiff * 0.15`. -/
def steer (E : Env K) (p : Snake K) : Snake K :=
  { p with angle := p.angle + angleDiff E.pi p.angle p.targetAngle * (15 / 100) }

/-! ### Speed and boost (lines 188-209) -/

/-- Lines 188-208: returns the updated snake and `currentSpeed`. -/
def boostStep (now : K) (p : Snake K) : Snake K × K :=
  if p.boosting ∧ p.score > 250 ∧ p.boostCooldown ≤ 0 then
    let score1 := p.score - 1 / 2
    let score2 := if score1 < 200 then 200 else score1
    let p1 := { p with score := score2 }
    let p2 :=
      if now - p1.lastBoostDrop > 200 ∧
          (p1.segments.length : K) > (SNAKE_INITIAL_LENGTH : K) / 2 then
        { p1 with
          targetLength := max ((SNAKE_INITIAL_LENGTH : K) / 2) (p1.targetLength - 2 / 10)
          lastBoostDrop := now }
      else p1
    (p2, p.speed * (PLAYER_BOOST_SPEED_MULTIPLIER : K))
  else
    ({ p with boosting := false }, p.speed)

/-- Line 209. -/
def cooldownStep (p : Snake K) : Snake K :=
  if p.boostCooldown > 0 then { p with boostCooldown := p.boostCooldown - GAME_TICK_RATE }
  else p

/-- Lines 211-212. -/
def translate (E : Env K) (p : Snake K) (currentSpeed : K) : Snake K :=
  { p with
    x := p.x + E.cos p.angle * currentSpeed
    y := p.y + E.sin p.angle * currentSpeed }

/-- Lines 183-212: heading, boost, cooldown and translation of one snake. -/
def moveHead (E : Env K) (now : K) (p : Snake K) : Snake K :=
  let r := boostStep now (steer E p)
  translate E (cooldownStep r.1) r.2

/-- Line 215: `headRadius`, also the collision radius of lines 276 and 296. -/
def headRadius (p : Snake K) : K := (SNAKE_BASE_SIZE : K) * p.sizeMultiplier / 2

/-- Lines 216-221: the wall test. -/
def hitsWall (p : Snake K) : Bool :=
  decide (p.x - headRadius p < 0) || decide (p.x + headRadius p > (GAME_WORLD_WIDTH : K)) ||
  decide (p.y - headRadius p < 0) || decide (p.y + headRadius p > (GAME_WORLD_HEIGHT : K))

/-! ### Segment chain (lines 241-265) -/

/-- Lines 246-251: the tail-trimming loop, run with a bound on the number of pops. -/
def trimLoop (desired : Int) : Nat → List (Point K) → List (Point K)
  | 0, segs => segs
  | n + 1, segs =>
    if (segs.length : Int) > desired ∧ segs.length > 2 then trimLoop desired n segs.dropLast
    else segs

/-- Lines 245-251: `desiredSegmentCount = Math.floor(targetLength)`, then the trimming loop.
Every pop shortens the list, so `segs.length` pops are enough (see `trimLoop_eq_take`). -/
def trimSegments (targetLength : K) (segs : List (Point K)) : List (Point K) :=
  trimLoop ⌊targetLength⌋ segs.length segs

/-- Lines 254-264: the body of the relaxation loop for one (leader, follower) pair; returns
the follower. -/
def pull (sqrt : K → K) (leader follower : Point K) : Point K :=
  let dx := leader.x - follower.x
  let dy := leader.y - follower.y
  let dist := sqrt (dx * dx + dy * dy)
  if dist > (SNAKE_SEGMENT_DISTANCE : K) then
    { x := follower.x + dx / dist * (dist - (SNAKE_SEGMENT_DISTANCE : K))
      y := follower.y + dy / dist * (dist - (SNAKE_SEGMENT_DISTANCE : K)) }
  else follower

/-- Lines 253-265 from index `i` on, given the already relaxed segment `i - 1`. -/
def relaxFrom (sqrt : K → K) (leader : Point K) : List (Point K) → List (Point K)
  | [] => []
  | f :: rest => pull sqrt leader f :: relaxFrom sqrt (pull sqrt leader f) rest

/-- Lines 253-265: the front-to-back relaxation pass. -/
def relax (sqrt : K → K) : List (Point K) → List (Point K)
  | [] => []
  | h :: rest => h :: relaxFrom sqrt h rest

/-- Lines 242-265: unshift the head, trim, relax. -/
def updateSegments (E : Env K) (p : Snake K) : Snake K :=
  { p with
    segments := relax E.sqrt (trimSegments p.targetLength ({ x := p.x, y := p.y } :: p.segments)) }

/-- Lines 268-269. -/
def grow (E : Env K) (p : Snake K) : Snake K :=
  { p with
    targetLength := (SNAKE_INITIAL_LENGTH : K) + jsFloor (p.score / 50)
    sizeMultiplier := 1 + E.pow (p.score / 1000) (1 / 5) }

/-! ### Entity factory (lines 55-120) -/

/-- `getRandomPosition(padding)`: two reads of `Math.random`, starting at read `c`. -/
def getRandomPosition (E : Env K) (c : Nat) (padding : K) : Point K :=
  { x := E.random c * ((GAME_WORLD_WIDTH : K) - padding * 2) + padding
    y := E.random (c + 1) * ((GAME_WORLD_HEIGHT : K) - padding * 2) + padding }

/-- `getRandomColor()`: three reads of `Math.random`, starting at read `c`. -/
def getRandomColor (E : Env K) (c : Nat) : String :=
  "rgb(" ++ toString ⌊E.random c * 200 + 55⌋ ++ "," ++ toString ⌊E.random (c + 1) * 200 + 55⌋
    ++ "," ++ toString ⌊E.random (c + 2) * 200 + 55⌋ ++ ")"

/-- Number of oracle reads of one `createFoodItem()` call. -/
def FOOD_READS : Nat := 9

/-- `createFoodItem()` (always called without an id), oracle reads `c .. c + 8`. -/
def createFoodItem (E : Env K) (c : Nat) : Food K :=
  { id := E.foodIdOf (E.dateNow (c + 2)) (E.random (c + 3))
    x := (getRandomPosition E c 50).x
    y := (getRandomPosition E c 50).y
    size := E.random (c + 4) * ((FOOD_RADIUS_MAX : K) - (FOOD_RADIUS_MIN : K))
      + (FOOD_RADIUS_MIN : K)
    color := getRandomColor E (c + 5)
    value := jsFloor (E.random (c + 8) * ((FOOD_RADIUS_MAX : K) - (FOOD_RADIUS_MIN : K))
      + (FOOD_RADIUS_MIN : K)) }

/-- The loop of `spawnInitialFood`, `n` iterations. -/
def spawnFoodLoop (E : Env K) : Nat → World K → World K
  | 0, w => w
  | n + 1, w =>
    spawnFoodLoop E n
      { w with foodItems := w.foodItems ++ [createFoodItem E w.calls], calls := w.calls + FOOD_READS }

/-- `spawnInitialFood()`. -/
def spawnInitialFood (E : Env K) (w : World K) : World K :=
  spawnFoodLoop E MAX_FOOD_ITEMS w

/-- Number of oracle reads of one `createSnake` call. -/
def SNAKE_READS : Nat := 7

/-- `createSnake(id, name, isBot)`, oracle reads `c .. c + 6`. -/
def createSnake (E : Env K) (c : Nat) (id name : String) ( isBot : Bool) : Snake K :=
  let position := getRandomPosition E c 200
  let initialAngle := E.random (c + 2) * 2 * E.pi
  { id := id
    name := name
    x := position.x
    y := position.y
    angle := initialAngle
    targetAngle := initialAngle
    speed := (PLAYER_INITIAL_SPEED : K)
    boosting := false
    score := 200
    segments := (List.range SNAKE_INITIAL_LENGTH).map fun (i : Nat) =>
      { x := position.x - (i : K) * (SNAKE_SEGMENT_DISTANCE : K) * E.cos initialAngle
        y := position.y - (i : K) * (SNAKE_SEGMENT_DISTANCE : K) * E.sin initialAngle }
    color := getRandomColor E (c + 3)
    bodyImageIndex := ⌊E.random (c + 6) * (SNAKE_BODY_IMAGE_COUNT : K)⌋
    alive := true
    isBot := isBot
    sizeMultiplier := 1
    targetLength := (SNAKE_INITIAL_LENGTH : K)
    boostCooldown := 0
    lastBoostDrop := 0 }

/-! ### Bot director (lines 122-138) -/

/-- The template literal of line 131. -/
def botIdOf (n : Nat) : String := "bot_" ++ toString n

/-- `s.slice(-2)`: the last two characters. -/
def lastTwo (s : String) : String := String.mk (s.data.drop (s.data.length - 2))

/-- Array read `xs[i]` at a numeric index; `none` stands for `undefined`. -/
def jsIndex {α : Type} (xs : List α) (i : Int) : Option α :=
  if i < 0 then none else xs[i.toNat]?

/-- One iteration of the loop of lines 130-137. -/
def spawnBot (E : Env K) (w : World K) : World K :=
  let botId := botIdOf w.botCounter
  let botName :=
    (jsIndex BOT_NAMES ⌊E.random w.calls * (BOT_NAMES.length : K)⌋).getD "undefined"
      ++ "_" ++ lastTwo botId
  { w with
    players := setPlayer w.players (createSnake E (w.calls + 1) botId botName true)
    botCounter := w.botCounter + 1
    calls := w.calls + 1 + SNAKE_READS }

/-- Number of alive snakes, `currentSnakes` of line 123. -/
def aliveCount (ps : List (Snake K)) : Nat := (ps.filter (fun p => p.alive)).length

/-- Lines 124-128: `botsToSpawn` (it can be negative). -/
def botsToSpawn (currentSnakes : Nat) : Int :=
  min (if currentSnakes < MIN_BOTS then (MIN_BOTS : Int) - currentSnakes else 0)
    ((MAX_TOTAL_SNAKES : Int) - currentSnakes)

/-- `manageBots()`. -/
def manageBots (E : Env K) (w : World K) : World K :=
  (spawnBot E)^[(botsToSpawn (aliveCount w.players)).toNat] w

/-! ### Food dropped by a snake (lines 140-156) -/

/-- Number of oracle reads of one `dropFoodFromSnake` call that finds its segment. -/
def DROP_READS : Nat := FOOD_READS + 2

/-- `dropFoodFromSnake(snake, segmentIndex)`. -/
def dropFoodFromSnake (E : Env K) (w : World K) (snake : Snake K) (segmentIndex : Nat) :
    World K :=
  match snake.segments[segmentIndex]? with
  | none => w
  | some segment =>
    let food := createFoodItem E w.calls
    let value := max 1 (jsFloor (snake.score / (snake.segments.length : K) / 2))
    { w with
      foodItems := w.foodItems ++
        [{ food with
           x := segment.x + (E.random (w.calls + FOOD_READS) - 1 / 2) * 10
           y := segment.y + (E.random (w.calls + FOOD_READS + 1) - 1 / 2) * 10
           value := value
           color := snake.color
           size := (FOOD_RADIUS_MAX : K) + min (value / 4) ((FOOD_RADIUS_MAX : K) * (3 / 4)) }]
      calls := w.calls + DROP_READS }

/-- The loops `for (k = 0; k < segments.length; k += stride) dropFoodFromSnake(snake, k)` of
lines 226-228, 300-303 (stride 2) and `server.js` 66-68 (stride 3). -/
def dropEvery (E : Env K) (stride : Nat) (snake : Snake K) (w : World K) : World K :=
  (List.range' 0 ((snake.segments.length + stride - 1) / stride) stride).foldl
    (fun w k => dropFoodFromSnake E w snake k) w

/-! ### Bot AI (lines 162-176) -/

/-- Lines 164-167: with chance 0.05 a new random target heading; `c` is the oracle read
counter, returned advanced. -/
def botRetarget (E : Env K) (c : Nat) (p : Snake K) : Snake K × Nat :=
  if E.random c < 5 / 100 then
    ({ p with targetAngle := E.random (c + 1) * 2 * E.pi }, c + 2)
  else (p, c + 1)

/-- Lines 169-173: with chance 0.1 head for a random food item (`Math.random` is not read when
there is no food).  An index outside the array cannot arise for `Math.random() < 1`; the snake
is then left as it is. -/
def botSeekFood (E : Env K) (foods : List (Food K)) (c : Nat) (p : Snake K) : Snake K × Nat :=
  if foods.length > 0 then
    if E.random c < 1 / 10 then
      match jsIndex foods ⌊E.random (c + 1) * (foods.length : K)⌋ with
      | some targetFood =>
        ({ p with targetAngle := E.atan2 (targetFood.y - p.y) (targetFood.x - p.x) }, c + 2)
      | none => (p, c + 2)
    else (p, c + 1)
  else (p, c)

/-- The callback of lines 162-176 for one snake; `c` is the oracle read counter. -/
def botThink (E : Env K) (foods : List (Food K)) (c : Nat) (p : Snake K) : Snake K × Nat :=
  if p.isBot ∧ p.alive then
    let s1 := botRetarget E c p
    let s2 := botSeekFood E foods s1.2 s1.1
    ({ s2.1 with boosting := decide (E.random s2.2 < 2 / 100) }, s2.2 + 1)
  else (p, c)

/-- Lines 162-176: the AI pass over `Object.values(players)`. -/
def botAI (E : Env K) (foods : List (Food K)) : Nat → List (Snake K) → List (Snake K) × Nat
  | c, [] => ([], c)
  | c, p :: ps =>
    let r := botThink E foods c p
    let rs := botAI E foods r.2 ps
    (r.1 :: rs.1, rs.2)

/-! ### Food consumption (lines 271-284) -/

/-- Line 274-277: the pickup test for one food item. -/
def inReach (E : Env K) (p : Snake K) (food : Food K) : Bool :=
  decide (hypot E.sqrt (p.x - food.x) (p.y - food.y) < headRadius p + food.size)

/-- State of the food loop: the snake, `foodItems` and the oracle read counter. -/
structure EatState (K : Type) where
  player : Snake K
  foodItems : List (Food K)
  calls : Nat

/-- Lines 272-284: the iterations `i = n - 1, n - 2, .., 0` of the food loop. -/
def eatLoop (E : Env K) : Nat → EatState K → EatState K
  | 0, st => st
  | i + 1, st =>
    match st.foodItems[i]? with
    | none => eatLoop E i st
    | some food =>
      if inReach E st.player food then
        let spliced := st.foodItems.eraseIdx i
        let st1 : EatState K :=
          { player := { st.player with score := st.player.score + food.value }
            foodItems := spliced
            calls := st.calls }
        let st2 : EatState K :=
          if spliced.length < MAX_FOOD_ITEMS then
            { st1 with
              foodItems := spliced ++ [createFoodItem E st.calls]
              calls := st.calls + FOOD_READS }
          else st1
        eatLoop E i st2
      else eatLoop E i st

/-- Lines 272-284: the loop starts at `i = foodItems.length - 1`. -/
def eatFood (E : Env K) (st : EatState K) : EatState K :=
  eatLoop E st.foodItems.length st

/-! ### Snake against snake (lines 286-315) -/

/-- Lines 292-297: does the head of `p` touch a segment of `other`? -/
def touches (E : Env K) (p other : Snake K) : Bool :=
  other.segments.any fun seg =>
    decide (hypot E.sqrt (p.x - seg.x) (p.y - seg.y) < headRadius other)

/-- Lines 298-312: `player` dies on `otherPlayer`. -/
def killBy (E : Env K) (w : World K) (player otherPlayer : Snake K) : World K :=
  let dead := { player with alive := false }
  let w1 := dropEvery E 2 dead { w with players := setPlayer w.players dead }
  let killer := { otherPlayer with score := otherPlayer.score + jsFloor (dead.score / 2) }
  let w2 :=
    { w1 with
      players := setPlayer w1.players killer
      events := w1.events ++ [Event.playerDied dead.id (some killer.id) killer.name dead.score] }
  if dead.isBot then { w2 with players := deletePlayer w2.players dead.id } else w2

/-- The callback of lines 287-315 for one `otherPlayer`, both given by their keys.  A key that
is no longer in `players` belongs to a bot that died in this tick (`alive` is false). -/
def collideWith (E : Env K) (pid : String) (w : World K) (oid : String) : World K :=
  match lookup w.players pid, lookup w.players oid with
  | some player, some otherPlayer =>
    if !otherPlayer.alive || player.id == otherPlayer.id || !player.alive then w
    else if touches E player otherPlayer then killBy E w player otherPlayer
    else w
  | _, _ => w

/-- Lines 287-315: the pass over `Object.values(players)`, taken when the pass starts. -/
def snakeVsSnake (E : Env K) (w : World K) (pid : String) : World K :=
  (w.players.map (fun p => p.id)).foldl (collideWith E pid) w

/-! ### The per-snake callback (lines 179-316) -/

/-- Lines 222-238: death at the wall. -/
def wallDeath (E : Env K) (w : World K) (player : Snake K) : World K :=
  let dead := { player with alive := false }
  let w1 := dropEvery E 2 dead { w with players := setPlayer w.players dead }
  let w2 :=
    { w1 with events := w1.events ++ [Event.playerDied dead.id none "the void" dead.score] }
  if dead.isBot then { w2 with players := deletePlayer w2.players dead.id } else w2

/-- Lines 241-284 for a snake that passed the wall test: segments, growth, food. -/
def afterWall (E : Env K) (w : World K) (p : Snake K) : World K :=
  let st := eatFood E
    { player := grow E (updateSegments E p), foodItems := w.foodItems, calls := w.calls }
  { w with
    players := setPlayer w.players st.player
    foodItems := st.foodItems
    calls := st.calls }

/-- The callback of lines 179-316 for the snake stored under `pid`.  A key that is no longer
in `players` belongs to a bot that died earlier in this tick. -/
def updatePlayer (E : Env K) (now : K) (w : World K) (pid : String) : World K :=
  match lookup w.players pid with
  | none => w
  | some player =>
    if !player.alive then w
    else
      let moved := moveHead E now player
      if hitsWall moved && moved.alive then wallDeath E w moved
      else snakeVsSnake E (afterWall E w moved) pid

/-! ### State projection and the tick (lines 159-354) -/

def viewFood (f : Food K) : FoodView K :=
  { id := f.id, x := f.x, y := f.y, size := f.size, color := f.color }

def viewPlayer (p : Snake K) : PlayerView K :=
  { id := p.id
    name := p.name
    x := p.x
    y := p.y
    segments := p.segments.map fun s => { x := jsRound s.x, y := jsRound s.y }
    color := p.color
    bodyImageIndex := p.bodyImageIndex
    score := jsFloor p.score
    sizeMultiplier := p.sizeMultiplier
    angle := p.angle
    isBot := p.isBot
    boosting := p.boosting }

/-- `stateToBroadcast.players[v.id] = v`. -/
def setView : List (PlayerView K) → PlayerView K → List (PlayerView K)
  | [], v => [v]
  | u :: us, v => if u.id == v.id then v :: us else u :: setView us v

/-- Lines 331-351: the players of the snapshot. -/
def snapshotPlayers (ps : List (Snake K)) : List (PlayerView K) :=
  ps.foldl (fun acc p => if p.alive then setView acc (viewPlayer p) else acc) []

/-- Lines 321-353: the `gameState` message. -/
def snapshot (w : World K) : Event K :=
  Event.gameState (snapshotPlayers w.players) (w.foodItems.map viewFood)

/-- Lines 179-316: the motion pass over `Object.values(players)`, taken when the pass starts. -/
def motionPass (E : Env K) (now : K) (w : World K) (ids : List String) : World K :=
  ids.foldl (updatePlayer E now) w

/-- Lines 318-353: bot maintenance and broadcast. -/
def finishTick (E : Env K) (w : World K) : World K :=
  let w1 := manageBots E w
  { w1 with events := w1.events ++ [snapshot w1] }

/-- Line 160: `const now = Date.now()`, the first oracle read of the tick. -/
def tickNow (E : Env K) (w : World K) : K := E.dateNow w.calls

/-- Lines 160-176: the world after the AI pass. -/
def afterAI (E : Env K) (w : World K) : World K :=
  let ai := botAI E w.foodItems (w.calls + 1) w.players
  { w with players := ai.1, calls := ai.2 }

/-- `gameLoop(io)`. -/
def gameLoop (E : Env K) (w : World K) : World K :=
  finishTick E
    (motionPass E (tickNow E w) (afterAI E w) ((afterAI E w).players.map fun p => p.id))

/-! ### Start-up and connection handlers (`initGame`, `server.js` lines 44-96)

Only `playerDied` and `gameState` messages are logged; the other messages of `server.js` carry
no state of their own. -/

def emptyWorld : World K :=
  { players := [], foodItems := [], botCounter := 0, calls := 0, events := [] }

/-- `initGame(io)` up to the first tick. -/
def initGame (E : Env K) : World K :=
  manageBots E (spawnInitialFood E emptyWorld)

/-- The `connection` handler, lines 44-59. -/
def connect (E : Env K) (w : World K) (socketId : String) : World K :=
  let playerName := "Player_" ++ String.mk (socketId.data.take 4)
  manageBots E
    { w with
      players := setPlayer w.players (createSnake E w.calls socketId playerName false)
      calls := w.calls + SNAKE_READS }

/-- The `disconnect` handler, lines 61-74. -/
def disconnect (E : Env K) (w : World K) (socketId : String) : World K :=
  match lookup w.players socketId with
  | some player =>
    let w1 := if player.alive then dropEvery E 3 player w else w
    manageBots E { w1 with players := deletePlayer w1.players socketId }
  | none => manageBots E w

/-- The `playerInput` handler, lines 76-82 (`input.boosting || false` is the flag itself). -/
def playerInput (w : World K) (socketId : String) (angle : K) (boosting : Bool) : World K :=
  match lookup w.players socketId with
  | some player =>
    if player.alive then
      { w with
        players := setPlayer w.players { player with targetAngle := angle, boosting := boosting } }
    else w
  | none => w

/-- The `requestRespawn` handler, lines 84-95. -/
def requestRespawn (E : Env K) (w : World K) (socketId : String) : World K :=
  match lookup w.players socketId with
  | some player =>
    if !player.alive then
      { w with
        players := setPlayer w.players (createSnake E w.calls socketId player.name false)
        calls := w.calls + SNAKE_READS }
    else w
  | none =>
    { w with
      players := setPlayer w.players
        (createSnake E w.calls socketId ("Player_" ++ String.mk (socketId.data.take 4)) false)
      calls := w.calls + SNAKE_READS }

/-- States the server can be in: start-up followed by ticks and connection events. -/
inductive Reachable (E : Env K) : World K → Prop
  | init : Reachable E (initGame E)
  | tick {w : World K} : Reachable E w → Reachable E (gameLoop E w)
  | connect {w : World K} (socketId : String) :
      Reachable E w → Reachable E (connect E w socketId)
  | disconnect {w : World K} (socketId : String) :
      Reachable E w → Reachable E (disconnect E w socketId)
  | input {w : World K} (socketId : String) (angle : K) (boosting : Bool) :
      Reachable E w → Reachable E (playerInput w socketId angle boosting)
  | respawn {w : World K} (socketId : String) :
      Reachable E w → Reachable E (requestRespawn E w socketId)

/-- What the iterations `i - 1, .., 0` of the food loop do: items `0 .. i - 1` in reach are
removed, replenished items are appended, the score grows by the values removed. -/
def EatInvariant (E : Env K) (i : Nat) (st : EatState K) : Prop :=
  ∃ added : List (Food K),
    (eatLoop E i st).foodItems =
      (st.foodItems.take i).filter (fun f => !inReach E st.player f) ++ st.foodItems.drop i
        ++ added ∧
    (∀ a ∈ added, ∃ c, a = createFoodItem E c) ∧
    added.length ≤ ((st.foodItems.take i).filter (inReach E st.player)).length ∧
    (eatLoop E i st).player =
      { st.player with
        score := st.player.score +
          (((st.foodItems.take i).filter (inReach E st.player)).map fun f => f.value).sum }

/-- The keys of `players` are pairwise distinct (they are the keys of an object). -/
def UniqueIds (w : World K) : Prop := (w.players.map fun p => p.id).Nodup

/-- No bot is present with `alive = false`. -/
def NoDeadBots (w : World K) : Prop := ∀ p ∈ w.players, p.isBot = true → p.alive = true

/-- No alive snake is stored under `pid`. -/
def DeadOrGone (w : World K) (pid : String) : Prop :=
  ∀ s ∈ w.players, s.id = pid → s.alive = false

/-- Every snake of the world satisfies `G` and every food item satisfies `F`. -/
def Invariant (G : Snake K → Prop) (F : Food K → Prop) (w : World K) : Prop :=
  (∀ p ∈ w.players, G p) ∧ (∀ f ∈ w.foodItems, F f)

/-- An alive snake has a first segment, and it is the head position. -/
def HeadFirst (p : Snake K) : Prop :=
  p.alive = true → p.segments[0]? = some { x := p.x, y := p.y }

end Defs

/-- The largest `k` with `k * k ≤ n`, by search. -/
def natSqrt (n : Nat) : Nat :=
  ((List.range (n + 1)).find? fun k => n < (k + 1) * (k + 1)).getD 0

/-- Square root of a rational, exact on squares of rationals. -/
def ratSqrt (q : ℚ) : ℚ := (natSqrt q.num.toNat : ℚ) / (natSqrt q.den : ℚ)

/-- The double `Math.PI`, which is `884279719003555 / 2 ^ 48`. -/
def doublePi : ℚ := 884279719003555 / 281474976710656

/-- An environment over `ℚ`: every `Math.random()` returns `0`, the clock advances by one
millisecond per read; `cos` and `sin` are exact at `0`, `atan2` on the positive x axis, `pow`
at bases `0` and `1`. -/
def sampleEnv : Env ℚ :=
  { pi := doublePi
    sqrt := ratSqrt
    cos := fun a => 1 - a * a / 2
    sin := fun a => a
    atan2 := fun _ _ => 0
    pow := fun b _ => if b = 0 then 0 else 1
    random := fun _ => 0
    dateNow := fun n => 1700000000000 + n
    foodIdOf := fun t r => "food_" ++ toString ⌊t⌋ ++ "_" ++ toString ⌊r * 100000⌋ }

/-- A human snake right after `createSnake` under `sampleEnv`: head at `(200, 200)`, heading
`0`, ten segments trailing along the x axis. -/
def sampleSnake : Snake ℚ := createSnake sampleEnv 0 "s1" "Player_s1" false

/-- A second human snake whose head `(195, 200)` is 5 away from the head segment of
`sampleSnake` (collision radius 8). -/
def sampleVictim : Snake ℚ :=
  { sampleSnake with
    id := "s2"
    name := "Player_s2"
    x := 195
    segments := sampleSnake.segments.map fun s => { s with x := s.x - 5 } }

/-- A world with the two human snakes `sampleVictim` and `sampleSnake` and no food. -/
def sampleDuel : World ℚ :=
  { players := [sampleVictim, sampleSnake], foodItems := [], botCounter := 0, calls := 0,
    events := [] }

/-- A human snake heading right (heading `0`) whose head `(1990, 200)` is one step from the
right wall. -/
def sampleRunner : Snake ℚ :=
  { sampleSnake with
    x := 1990
    segments := sampleSnake.segments.map fun s => { s with x := s.x + 1790 } }

/-- A world with the single snake `sampleRunner` and no food. -/
def sampleEdge : World ℚ :=
  { players := [sampleRunner], foodItems := [], botCounter := 0, calls := 0, events := [] }

/-- The motion and growth of one tick for a snake that stays clear of walls, food and other
snakes (lines 183-269), with the clock at `0`. -/
def sampleTick (p : Snake ℚ) : Snake ℚ :=
  grow sampleEnv (updateSegments sampleEnv (moveHead sampleEnv 0 p))

/-- The snake `sampleSnake` after four such ticks: 13 segments, `targetLength = 14`. -/
def sampleGrown : Snake ℚ := sampleTick (sampleTick (sampleTick (sampleTick sampleSnake)))

set_option linter.unusedSectionVars false
set_option linter.unusedVariables false

section Local

variable {K : Type} [LinearOrderedField K] [FloorRing K]

/-! ## Heading wrap -/

theorem trimLoop_eq_take (desired : Int) :
    ∀ (n : Nat) (segs : List (Point K)), segs.length ≤ n →
      trimLoop desired n segs = segs.take (max 2 desired).toNat := by
  intro n
  induction n with
  | zero =>
    intro segs h
    have : segs = [] := List.length_eq_zero.mp (by omega)
    subst this
    simp [trimLoop]
  | succ n ih =>
    intro segs h
    rw [trimLoop]
    split_ifs with hc
    · rw [ih _ (by simp; omega)]
      rw [List.dropLast_eq_take, List.take_take]
      congr 1
      have : (max 2 desired).toNat ≤ segs.length - 1 := by omega
      omega
    · rw [List.take_of_length_le]
      omega

theorem trimSegments_eq_take (targetLength : K) (segs : List (Point K)) :
    trimSegments targetLength segs = segs.take (max 2 ⌊targetLength⌋).toNat :=
  trimLoop_eq_take _ _ _ (le_refl _)

theorem relaxFrom_length (sqrt : K → K) : ∀ (segs : List (Point K)) (l : Point K),
    (relaxFrom sqrt l segs).length = segs.length := by
  intro segs
  induction segs with
  | nil => intro l; rfl
  | cons f rest ih => intro l; simp [relaxFrom, ih]

theorem relax_length (sqrt : K → K) (segs : List (Point K)) :
    (relax sqrt segs).length = segs.length := by
  cases segs with
  | nil => rfl
  | cons h rest => simp [relax, relaxFrom_length]


/-! ## Relaxation -/

theorem relax_head (sqrt : K → K) (segs : List (Point K)) : (relax sqrt segs)[0]? = segs[0]? := by
  cases segs <;> simp [relax]


/-! ## Claims on the segment chain and the heading -/

/-- C5 (amended): after the unshift and the trimming loop the segment count is at most
`max(2, floor(targetLength))`; it equals that value exactly when the snake had at least
`max(2, floor(targetLength)) - 1` segments before the unshift, and otherwise it is the old count
plus one.  The loop condition is false on the result, and relaxation keeps the count. -/
theorem trim_count (E : Env K) (p : Snake K) :
    let trimmed := trimSegments p.targetLength ({ x := p.x, y := p.y } :: p.segments)
    let m := max 2 ⌊p.targetLength⌋
    (trimmed.length : Int) ≤ m ∧
    ((trimmed.length : Int) = m ↔ m ≤ (p.segments.length : Int) + 1) ∧
    (m ≤ (p.segments.length : Int) + 1 ∨ trimmed.length = p.segments.length + 1) ∧
    ¬ ((trimmed.length : Int) > ⌊p.targetLength⌋ ∧ trimmed.length > 2) ∧
    (updateSegments E p).segments.length = trimmed.length := by
  intro trimmed m
  have hlen : trimmed.length = min (max 2 ⌊p.targetLength⌋).toNat (p.segments.length + 1) := by
    simp only [trimmed, trimSegments_eq_take, List.length_take, List.length_cons]
  have hm : (2 : Int) ≤ m := le_max_left _ _
  have hm' : ⌊p.targetLength⌋ ≤ m := le_max_right _ _
  have hmm : m = 2 ∨ m = ⌊p.targetLength⌋ := by
    rcases max_choice (2 : Int) ⌊p.targetLength⌋ with h | h
    · exact Or.inl h
    · exact Or.inr h
  have hupd : (updateSegments E p).segments.length = trimmed.length := by
    simp [updateSegments, relax_length, trimmed]
  refine ⟨?_, ?_, ?_, ?_, hupd⟩ <;> rw [hlen] <;> omega

/-- C5 (counterexample): a fresh snake after its first tick has 10 segments and
`targetLength = 14`; in the next tick the count after trimming is 11, not `max(2, 14) = 14`. -/
theorem trim_count_counterexample :
    let p := grow sampleEnv (updateSegments sampleEnv (moveHead sampleEnv 0 sampleSnake))
    p.segments.length = 10 ∧ p.targetLength = 14 ∧
    (trimSegments p.targetLength ({ x := p.x, y := p.y } :: p.segments)).length = 11 ∧
    max 2 ⌊p.targetLength⌋ = 14 := by
  decide!

end Local

section World

variable {K : Type} [LinearOrderedField K] [FloorRing K]

/-! ## The `players` object -/

theorem lookup_some_id {ps : List (Snake K)} {i : String} {p : Snake K}
    (h : lookup ps i = some p) : p.id = i := by
  have := List.find?_some h
  simpa using this

theorem lookup_mem {ps : List (Snake K)} {i : String} {p : Snake K}
    (h : lookup ps i = some p) : p ∈ ps :=
  List.mem_of_find?_eq_some h

theorem lookup_cons (q : Snake K) (ps : List (Snake K)) (i : String) :
    lookup (q :: ps) i = if q.id = i then some q else lookup ps i := by
  unfold lookup
  rw [List.find?_cons]
  by_cases h : q.id = i
  · simp [h]
  · have h' : (q.id == i) = false := by simpa using h
    simp [h, h']

theorem lookup_setPlayer (ps : List (Snake K)) (s : Snake K) (i : String) :
    lookup (setPlayer ps s) i = if s.id = i then some s else lookup ps i := by
  induction ps with
  | nil => simp [setPlayer, lookup_cons, lookup]
  | cons q ps ih =>
    rw [setPlayer]
    by_cases hq : q.id = s.id
    · have hq' : (q.id == s.id) = true := by simpa using hq
      rw [if_pos hq', lookup_cons, lookup_cons, hq]
      by_cases h : s.id = i <;> simp [h]
    · have hq' : (q.id == s.id) = false := by simpa using hq
      rw [hq']
      simp only [Bool.false_eq_true, if_false]
      rw [lookup_cons, lookup_cons, ih]
      by_cases h1 : q.id = i
      · have : ¬ s.id = i := fun h => hq (h1.trans h.symm)
        simp [h1, this]
      · simp [h1]

theorem lookup_deletePlayer (ps : List (Snake K)) (j i : String) :
    lookup (deletePlayer ps j) i = if i = j then none else lookup ps i := by
  induction ps with
  | nil => simp [deletePlayer, lookup]
  | cons q ps ih =>
    unfold deletePlayer at ih ⊢
    rw [List.filter_cons]
    by_cases hq : q.id = j
    · simp only [hq, beq_self_eq_true, Bool.not_true, Bool.false_eq_true, if_false, ih, lookup_cons]
      by_cases h : i = j
      · simp [h]
      · have : ¬ j = i := fun e => h e.symm
        simp [h, this]
    · have hq' : (q.id == j) = false := by simpa using hq
      simp only [hq', Bool.not_false, if_true, lookup_cons, ih]
      by_cases h : i = j
      · have : ¬ q.id = i := fun e => hq (e.trans h)
        simp [h, this, hq]
      · simp [h]

theorem mem_setPlayer {ps : List (Snake K)} {s x : Snake K} (h : x ∈ setPlayer ps s) :
    x = s ∨ x ∈ ps := by
  induction ps with
  | nil => simpa [setPlayer] using h
  | cons q ps ih =>
    rw [setPlayer] at h
    split_ifs at h with hq
    · rcases List.mem_cons.mp h with h | h
      · exact Or.inl h
      · exact Or.inr (List.mem_cons_of_mem _ h)
    · rcases List.mem_cons.mp h with h | h
      · exact Or.inr (h ▸ List.mem_cons_self _ _)
      · rcases ih h with h | h
        · exact Or.inl h
        · exact Or.inr (List.mem_cons_of_mem _ h)

theorem mem_deletePlayer {ps : List (Snake K)} {j : String} {x : Snake K} :
    x ∈ deletePlayer ps j ↔ x ∈ ps ∧ x.id ≠ j := by
  simp [deletePlayer]

theorem setPlayer_of_fresh {ps : List (Snake K)} {s : Snake K}
    (h : ∀ p ∈ ps, p.id ≠ s.id) : setPlayer ps s = ps ++ [s] := by
  induction ps with
  | nil => rfl
  | cons q ps ih =>
    have hq : (q.id == s.id) = false := by simpa using h q (List.mem_cons_self _ _)
    rw [setPlayer, hq]
    simp [ih fun p hp => h p (List.mem_cons_of_mem _ hp)]

theorem setPlayer_ids_of_mem {ps : List (Snake K)} {s : Snake K}
    (h : ∃ p ∈ ps, p.id = s.id) :
    (setPlayer ps s).map (fun p => p.id) = ps.map (fun p => p.id) := by
  induction ps with
  | nil => simp at h
  | cons q ps ih =>
    rw [setPlayer]
    by_cases hq : q.id = s.id
    · simp [hq]
    · have hq' : (q.id == s.id) = false := by simpa using hq
      obtain ⟨p, hp, hps⟩ := h
      rcases List.mem_cons.mp hp with rfl | hp
      · exact absurd hps hq
      · simp [hq', ih ⟨p, hp, hps⟩]

theorem setPlayer_ids (ps : List (Snake K)) (s : Snake K) :
    (setPlayer ps s).map (fun p => p.id) = ps.map (fun p => p.id) ∨
    ((∀ p ∈ ps, p.id ≠ s.id) ∧
      (setPlayer ps s).map (fun p => p.id) = ps.map (fun p => p.id) ++ [s.id]) := by
  by_cases h : ∃ p ∈ ps, p.id = s.id
  · exact Or.inl (setPlayer_ids_of_mem h)
  · push_neg at h
    exact Or.inr ⟨h, by simp [setPlayer_of_fresh h]⟩

theorem nodup_setPlayer {ps : List (Snake K)} (s : Snake K)
    (h : (ps.map fun p => p.id).Nodup) : ((setPlayer ps s).map fun p => p.id).Nodup := by
  rcases setPlayer_ids ps s with e | ⟨hf, e⟩
  · rw [e]; exact h
  · rw [e]
    refine List.Nodup.append h (List.nodup_singleton _) ?_
    intro a ha hb
    obtain rfl : a = s.id := by simpa using hb
    obtain ⟨p, hp, hpa⟩ := List.mem_map.mp ha
    exact hf p hp hpa

theorem nodup_deletePlayer {ps : List (Snake K)} (j : String)
    (h : (ps.map fun p => p.id).Nodup) : ((deletePlayer ps j).map fun p => p.id).Nodup := by
  unfold deletePlayer
  exact (List.filter_sublist _).map _ |>.nodup h

theorem lookup_of_mem_nodup {ps : List (Snake K)} (h : (ps.map fun p => p.id).Nodup)
    {p : Snake K} (hp : p ∈ ps) : lookup ps p.id = some p := by
  induction ps with
  | nil => simp at hp
  | cons q ps ih =>
    rw [lookup_cons]
    rw [List.map_cons, List.nodup_cons] at h
    rcases List.mem_cons.mp hp with rfl | hp'
    · simp
    · have : q.id ≠ p.id := fun e => h.1 (List.mem_map.mpr ⟨p, hp', e.symm⟩)
      simp [this, ih h.2 hp']

theorem lookup_eq_none_iff {ps : List (Snake K)} {i : String} :
    lookup ps i = none ↔ ∀ p ∈ ps, p.id ≠ i := by
  simp [lookup]

/-! ## Food drops leave the snakes alone -/

theorem dropFoodFromSnake_frame (E : Env K) (w : World K) (s : Snake K) (k : Nat) :
    (dropFoodFromSnake E w s k).players = w.players ∧
    (dropFoodFromSnake E w s k).events = w.events ∧
    (dropFoodFromSnake E w s k).botCounter = w.botCounter := by
  unfold dropFoodFromSnake
  cases s.segments[k]? <;> simp

theorem dropFoodFromSnake_length (E : Env K) (w : World K) (s : Snake K) (k : Nat) :
    (dropFoodFromSnake E w s k).foodItems.length =
      w.foodItems.length + (if k < s.segments.length then 1 else 0) := by
  unfold dropFoodFromSnake
  by_cases h : k < s.segments.length
  · simp [List.getElem?_eq_getElem h, h]
  · simp [List.getElem?_eq_none (not_lt.mp h), h]

theorem foldl_drop_frame (E : Env K) (s : Snake K) (ks : List Nat) (w : World K) :
    (ks.foldl (fun w k => dropFoodFromSnake E w s k) w).players = w.players ∧
    (ks.foldl (fun w k => dropFoodFromSnake E w s k) w).events = w.events ∧
    (ks.foldl (fun w k => dropFoodFromSnake E w s k) w).botCounter = w.botCounter := by
  induction ks generalizing w with
  | nil => simp
  | cons k ks ih =>
    simp only [List.foldl_cons]
    obtain ⟨h1, h2, h3⟩ := ih (dropFoodFromSnake E w s k)
    obtain ⟨g1, g2, g3⟩ := dropFoodFromSnake_frame E w s k
    exact ⟨h1.trans g1, h2.trans g2, h3.trans g3⟩

theorem dropEvery_frame (E : Env K) (stride : Nat) (s : Snake K) (w : World K) :
    (dropEvery E stride s w).players = w.players ∧
    (dropEvery E stride s w).events = w.events ∧
    (dropEvery E stride s w).botCounter = w.botCounter :=
  foldl_drop_frame E s _ w

theorem foldl_drop_length (E : Env K) (s : Snake K) (ks : List Nat) (w : World K)
    (hks : ∀ k ∈ ks, k < s.segments.length) :
    (ks.foldl (fun w k => dropFoodFromSnake E w s k) w).foodItems.length =
      w.foodItems.length + ks.length := by
  induction ks generalizing w with
  | nil => simp
  | cons k ks ih =>
    simp only [List.foldl_cons]
    rw [ih _ (fun k' hk' => hks k' (List.mem_cons_of_mem _ hk')), dropFoodFromSnake_length,
      if_pos (hks k (List.mem_cons_self _ _))]
    simp
    omega

theorem dropEvery_length (E : Env K) (stride : Nat) (hs : 0 < stride) (s : Snake K)
    (w : World K) :
    (dropEvery E stride s w).foodItems.length =
      w.foodItems.length + (s.segments.length + stride - 1) / stride := by
  unfold dropEvery
  rw [foldl_drop_length]
  · simp
  · intro k hk
    rw [List.mem_range'] at hk
    obtain ⟨i, hi, rfl⟩ := hk
    have h1 : (s.segments.length + stride - 1) / stride * stride ≤ s.segments.length + stride - 1 :=
      Nat.div_mul_le_self _ _
    have h2 : (i + 1) * stride ≤ (s.segments.length + stride - 1) / stride * stride :=
      Nat.mul_le_mul_right _ hi
    have h3 : (i + 1) * stride = stride * i + stride := by ring
    omega

/-! ## The food loop -/

theorem inReach_score (E : Env K) (p : Snake K) (s : K) (f : Food K) :
    inReach E { p with score := s } f = inReach E p f := rfl

theorem take_glue {α : Type} (l extra : List α) (i : Nat) (hi : i < l.length) :
    (l.take i ++ (l.drop (i + 1) ++ extra)).take i = l.take i ∧
    (l.take i ++ (l.drop (i + 1) ++ extra)).drop i = l.drop (i + 1) ++ extra := by
  have hti : (l.take i).length = i := by simp; omega
  constructor
  · rw [List.take_append_of_le_length (by omega), List.take_of_length_le (by omega)]
  · rw [List.drop_append_of_le_length (by omega), List.drop_of_length_le (by omega)]
    rfl

/-- One iteration of the food loop that eats item `i`, followed by the remaining iterations:
`extra` is the replenishment (one item or none). -/
theorem eatLoop_step (E : Env K) (i : Nat) (p : Snake K) (l extra : List (Food K)) (c : Nat)
    (hi : i < l.length) (hr : inReach E p l[i] = true)
    (hextra : ∀ a ∈ extra, ∃ c, a = createFoodItem E c)
    (ih : EatInvariant E i ⟨{ p with score := p.score + l[i].value },
          l.take i ++ (l.drop (i + 1) ++ extra), c⟩) :
    ∃ added : List (Food K),
      (eatLoop E i ⟨{ p with score := p.score + l[i].value },
          l.take i ++ (l.drop (i + 1) ++ extra), c⟩).foodItems =
        (l.take (i + 1)).filter (fun f => !inReach E p f) ++ l.drop (i + 1) ++ added ∧
      (∀ a ∈ added, ∃ c, a = createFoodItem E c) ∧
      added.length + 1 ≤ ((l.take (i + 1)).filter (inReach E p)).length + extra.length ∧
      (eatLoop E i ⟨{ p with score := p.score + l[i].value },
          l.take i ++ (l.drop (i + 1) ++ extra), c⟩).player =
        { p with
          score := p.score + (((l.take (i + 1)).filter (inReach E p)).map fun f => f.value).sum } := by
  obtain ⟨added, h1, h2, h3, h4⟩ := ih
  have e : inReach E { p with score := p.score + l[i].value } = inReach E p := rfl
  simp only [e] at h1 h3 h4
  obtain ⟨e1, e2⟩ := take_glue l extra i hi
  rw [e1] at h3 h4
  rw [e1, e2] at h1
  have htake : l.take (i + 1) = l.take i ++ [l[i]] := by
    rw [List.take_succ, List.getElem?_eq_getElem hi]; rfl
  have hneg : (!inReach E p l[i]) = false := by simp [hr]
  have f1 : (l.take (i + 1)).filter (fun f => !inReach E p f) =
      (l.take i).filter (fun f => !inReach E p f) := by
    rw [htake, List.filter_append]
    simp only [List.filter_cons, hneg, Bool.false_eq_true, if_false, List.filter_nil,
      List.append_nil]
  have f2 : (l.take (i + 1)).filter (inReach E p) = (l.take i).filter (inReach E p) ++ [l[i]] := by
    rw [htake, List.filter_append]
    simp only [List.filter_cons, hr, if_true, List.filter_nil]
  refine ⟨extra ++ added, ?_, ?_, ?_, ?_⟩
  · rw [h1, f1]
    simp only [List.append_assoc]
  · intro a ha
    rcases List.mem_append.mp ha with ha | ha
    · exact hextra a ha
    · exact h2 a ha
  · rw [f2]
    simp only [List.length_append, List.length_singleton]
    omega
  · rw [h4, f2]
    simp only [List.map_append, List.sum_append, List.map_cons, List.map_nil, List.sum_cons,
      List.sum_nil, add_zero]
    congr 1
    ring

theorem eatLoop_spec (E : Env K) : ∀ (i : Nat) (st : EatState K), i ≤ st.foodItems.length →
    EatInvariant E i st := by
  intro i
  induction i with
  | zero => intro st _; exact ⟨[], by simp [eatLoop]⟩
  | succ i ih =>
    intro st hlen
    obtain ⟨p, l, c⟩ := st
    simp only at hlen
    have hi : i < l.length := by omega
    unfold EatInvariant
    rw [eatLoop, List.getElem?_eq_getElem hi]
    simp only
    have herase : l.eraseIdx i = l.take i ++ l.drop (i + 1) :=
      List.eraseIdx_eq_take_drop_succ _ _
    have hglue : ∀ extra : List (Food K),
        i ≤ (l.take i ++ (l.drop (i + 1) ++ extra)).length := by
      intro extra
      simp only [List.length_append, List.length_take]
      omega
    by_cases hr : inReach E p l[i] = true
    · rw [if_pos hr]
      split_ifs with hcap
      · have h := eatLoop_step E i p l [createFoodItem E c] (c + FOOD_READS) hi hr
          (by intro a ha; exact ⟨c, by simpa using ha⟩) (ih _ (hglue _))
        rw [herase, List.append_assoc]
        obtain ⟨added, g1, g2, g3, g4⟩ := h
        exact ⟨added, g1, g2, by simp at g3; omega, g4⟩
      · have h := eatLoop_step E i p l [] c hi hr (by simp) (ih _ (hglue _))
        rw [herase]
        simp only [List.append_nil] at h
        obtain ⟨added, g1, g2, g3, g4⟩ := h
        exact ⟨added, g1, g2, by simp at g3; omega, g4⟩
    · rw [if_neg hr]
      obtain ⟨added, h1, h2, h3, h4⟩ := ih ⟨p, l, c⟩ (by simp; omega)
      simp only at h1 h3 h4
      have htake : l.take (i + 1) = l.take i ++ [l[i]] := by
        rw [List.take_succ, List.getElem?_eq_getElem hi]; rfl
      have hdrop : l.drop i = l[i] :: l.drop (i + 1) := List.drop_eq_getElem_cons hi
      have hr' : inReach E p l[i] = false := by simpa using hr
      have hneg : (!inReach E p l[i]) = true := by simp [hr']
      have f1 : (l.take (i + 1)).filter (fun f => !inReach E p f) =
          (l.take i).filter (fun f => !inReach E p f) ++ [l[i]] := by
        rw [htake, List.filter_append]
        simp only [List.filter_cons, hneg, if_true, List.filter_nil]
      have f2 : (l.take (i + 1)).filter (inReach E p) = (l.take i).filter (inReach E p) := by
        rw [htake, List.filter_append]
        simp only [List.filter_cons, hr', Bool.false_eq_true, if_false, List.filter_nil,
          List.append_nil]
      refine ⟨added, ?_, h2, ?_, ?_⟩
      · rw [h1, f1, hdrop]
        simp only [List.append_assoc, List.singleton_append]
      · rw [f2]; exact h3
      · rw [h4, f2]

/-- C2: the food loop of one snake removes exactly the items of the initial `foodItems` whose
distance to the head is below `SNAKE_BASE_SIZE * sizeMultiplier / 2 + size` and keeps the others
in order; the items appended after them are replenished items (`createFoodItem`), all of them
still present at the end of the loop and at most one per removed item; the score grows by the sum
of the values of the removed items, for a single item in reach by that item's value. -/
theorem eatFood_spec (E : Env K) (st : EatState K) :
    (∀ f : Food K, inReach E st.player f = true ↔
      hypot E.sqrt (st.player.x - f.x) (st.player.y - f.y) <
        (SNAKE_BASE_SIZE : K) * st.player.sizeMultiplier / 2 + f.size) ∧
    ∃ added : List (Food K),
      (eatFood E st).foodItems =
        st.foodItems.filter (fun f => !inReach E st.player f) ++ added ∧
      (∀ a ∈ added, ∃ c, a = createFoodItem E c) ∧
      added.length ≤ (st.foodItems.filter (inReach E st.player)).length ∧
      (eatFood E st).player =
        { st.player with
          score := st.player.score +
            ((st.foodItems.filter (inReach E st.player)).map fun f => f.value).sum } ∧
      (∀ f : Food K, st.foodItems = [f] → inReach E st.player f = true →
        (eatFood E st).player.score = st.player.score + f.value) := by
  refine ⟨fun f => by simp [inReach, headRadius], ?_⟩
  obtain ⟨added, h1, h2, h3, h4⟩ := eatLoop_spec E st.foodItems.length st (le_refl _)
  simp only [List.take_length, List.drop_length, List.append_nil] at h1 h3 h4
  refine ⟨added, h1, h2, h3, h4, ?_⟩
  intro f hf hr
  rw [eatFood, h4, hf]
  simp [hr]

/-! ## Bot ids -/

theorem botIdOf_data (n : Nat) : (botIdOf n).data = 'b' :: 'o' :: 't' :: '_' :: Nat.toDigits 10 n := by
  rfl

theorem createSnake_fields (E : Env K) (c : Nat) (id name : String) (b : Bool) :
    (createSnake E c id name b).id = id ∧ (createSnake E c id name b).alive = true ∧
    (createSnake E c id name b).isBot = b ∧ (createSnake E c id name b).name = name ∧
    (createSnake E c id name b).segments.length = SNAKE_INITIAL_LENGTH := by
  simp [createSnake]

theorem moveHead_fields (E : Env K) (now : K) (p : Snake K) :
    (moveHead E now p).id = p.id ∧ (moveHead E now p).alive = p.alive ∧
    (moveHead E now p).isBot = p.isBot ∧ (moveHead E now p).name = p.name ∧
    (moveHead E now p).segments = p.segments ∧
    (moveHead E now p).sizeMultiplier = p.sizeMultiplier := by
  simp only [moveHead, translate, cooldownStep, boostStep, steer]
  split_ifs <;> simp

theorem shape_fields (E : Env K) (p : Snake K) :
    (grow E (updateSegments E p)).id = p.id ∧ (grow E (updateSegments E p)).alive = p.alive ∧
    (grow E (updateSegments E p)).isBot = p.isBot ∧ (grow E (updateSegments E p)).name = p.name ∧
    (grow E (updateSegments E p)).x = p.x ∧ (grow E (updateSegments E p)).y = p.y := by
  simp [grow, updateSegments]

theorem eatFood_player (E : Env K) (st : EatState K) :
    (eatFood E st).player.id = st.player.id ∧ (eatFood E st).player.alive = st.player.alive ∧
    (eatFood E st).player.isBot = st.player.isBot ∧
    (eatFood E st).player.name = st.player.name ∧
    (eatFood E st).player.x = st.player.x ∧ (eatFood E st).player.y = st.player.y ∧
    (eatFood E st).player.segments = st.player.segments := by
  obtain ⟨added, h1, h2, h3, h4⟩ := eatLoop_spec E st.foodItems.length st (le_refl _)
  rw [eatFood, h4]
  simp

/-- The snake that `afterWall` stores. -/
theorem afterWall_spec (E : Env K) (w : World K) (p : Snake K) :
    ∃ q : Snake K, (afterWall E w p).players = setPlayer w.players q ∧ q.id = p.id ∧
      q.alive = p.alive ∧ q.isBot = p.isBot ∧ q.name = p.name ∧ q.x = p.x ∧ q.y = p.y ∧
      (afterWall E w p).events = w.events ∧ (afterWall E w p).botCounter = w.botCounter := by
  obtain ⟨e1, e2, e3, e4, e5, e6, e7⟩ := eatFood_player E
    { player := grow E (updateSegments E p), foodItems := w.foodItems, calls := w.calls }
  obtain ⟨g1, g2, g3, g4, g5, g6⟩ := shape_fields E p
  exact ⟨_, rfl, e1.trans g1, e2.trans g2, e3.trans g3, e4.trans g4, e5.trans g5, e6.trans g6,
    rfl, rfl⟩

/-! ## Snake against snake -/

theorem touches_iff (E : Env K) (p other : Snake K) :
    touches E p other = true ↔ ∃ seg ∈ other.segments,
      hypot E.sqrt (p.x - seg.x) (p.y - seg.y) < (SNAKE_BASE_SIZE : K) * other.sizeMultiplier / 2 := by
  simp [touches, headRadius]

theorem killBy_events (E : Env K) (w : World K) (p o : Snake K) :
    (killBy E w p o).events =
      w.events ++ [Event.playerDied p.id (some o.id) o.name p.score] ∧
    (killBy E w p o).botCounter = w.botCounter := by
  unfold killBy
  simp only
  split_ifs <;> simp [(dropEvery_frame E 2 _ _).2.1, (dropEvery_frame E 2 _ _).2.2]

theorem killBy_players (E : Env K) (w : World K) (p o : Snake K) :
    (killBy E w p o).players =
      if p.isBot then
        deletePlayer (setPlayer (setPlayer w.players { p with alive := false })
          { o with score := o.score + jsFloor (p.score / 2) }) p.id
      else
        setPlayer (setPlayer w.players { p with alive := false })
          { o with score := o.score + jsFloor (p.score / 2) } := by
  unfold killBy
  simp only
  split_ifs <;> simp [(dropEvery_frame E 2 _ _).1]

theorem killBy_lookup (E : Env K) (w : World K) (p o : Snake K) (hne : p.id ≠ o.id)
    (i : String) :
    lookup (killBy E w p o).players i =
      if i = p.id then (if p.isBot then none else some { p with alive := false })
      else if i = o.id then some { o with score := o.score + jsFloor (p.score / 2) }
      else lookup w.players i := by
  rw [killBy_players]
  by_cases hb : p.isBot = true
  · simp only [hb, if_true, lookup_deletePlayer, lookup_setPlayer]
    by_cases h1 : i = p.id
    · simp [h1]
    · by_cases h2 : i = o.id
      · simp [h2, hne.symm]
      · have h1' : ¬ p.id = i := fun e => h1 e.symm
        have h2' : ¬ o.id = i := fun e => h2 e.symm
        simp [h1, h2, h1', h2']
  · simp only [hb, Bool.false_eq_true, if_false, lookup_setPlayer]
    by_cases h1 : i = p.id
    · subst h1
      have : ¬ o.id = p.id := fun e => hne e.symm
      simp [this]
    · by_cases h2 : i = o.id
      · simp [h2, hne.symm]
      · have h1' : ¬ p.id = i := fun e => h1 e.symm
        have h2' : ¬ o.id = i := fun e => h2 e.symm
        simp [h1, h2, h1', h2']

theorem foldl_collide_noop (E : Env K) (pid : String) (w : World K) (ids : List String)
    (h : ∀ oid ∈ ids, collideWith E pid w oid = w) : ids.foldl (collideWith E pid) w = w := by
  induction ids with
  | nil => rfl
  | cons oid ids ih =>
    rw [List.foldl_cons, h oid (List.mem_cons_self _ _)]
    exact ih fun o ho => h o (List.mem_cons_of_mem _ ho)

theorem collideWith_dead (E : Env K) (pid : String) (w : World K) (oid : String)
    (h : ∀ s, lookup w.players pid = some s → s.alive = false) : collideWith E pid w oid = w := by
  unfold collideWith
  cases hp : lookup w.players pid with
  | none => rfl
  | some player =>
    cases ho : lookup w.players oid with
    | none => rfl
    | some other =>
      simp [h player hp]

/-- C1: let `A` be an alive snake of a world with distinct keys and `B` the first snake in
iteration order that is alive, is not `A`, and has a segment at distance below
`SNAKE_BASE_SIZE * B.sizeMultiplier / 2` from the head of `A`.  The snake-against-snake pass of
`A` leaves `A` with `alive = false` (a bot is deleted from `players` at once), leaves `B` as it
was except that its score grows by `floor(A.score / 2)`, changes no other snake, and emits the
one event `playerDied` for `A` with `killerId = B.id` and `killerName = B.name`. -/
theorem snakeVsSnake_kill (E : Env K) (w : World K) (A B : Snake K)
    (pre post : List (Snake K))
    (hnd : UniqueIds w) (hsplit : w.players = pre ++ B :: post) (hA : A ∈ w.players)
    (hAalive : A.alive = true) (hBalive : B.alive = true) (hAB : A.id ≠ B.id)
    (hhit : ∃ seg ∈ B.segments, hypot E.sqrt (A.x - seg.x) (A.y - seg.y) <
      (SNAKE_BASE_SIZE : K) * B.sizeMultiplier / 2)
    (hfirst : ∀ C ∈ pre, C.alive = true → C.id ≠ A.id → ∀ seg ∈ C.segments,
      ¬ hypot E.sqrt (A.x - seg.x) (A.y - seg.y) <
        (SNAKE_BASE_SIZE : K) * C.sizeMultiplier / 2) :
    lookup (snakeVsSnake E w A.id).players A.id =
      (if A.isBot then none else some { A with alive := false }) ∧
    lookup (snakeVsSnake E w A.id).players B.id =
      some { B with score := B.score + jsFloor (A.score / 2) } ∧
    (∀ i, i ≠ A.id → i ≠ B.id →
      lookup (snakeVsSnake E w A.id).players i = lookup w.players i) ∧
    (snakeVsSnake E w A.id).events =
      w.events ++ [Event.playerDied A.id (some B.id) B.name A.score] := by
  have hlA : lookup w.players A.id = some A := lookup_of_mem_nodup hnd hA
  have hBmem : B ∈ w.players := by rw [hsplit]; simp
  have hlB : lookup w.players B.id = some B := lookup_of_mem_nodup hnd hBmem
  -- the callbacks before `B` change nothing
  have h1 : (pre.map fun p => p.id).foldl (collideWith E A.id) w = w := by
    apply foldl_collide_noop
    intro oid ho
    obtain ⟨C, hC, rfl⟩ := List.mem_map.mp ho
    have hCmem : C ∈ w.players := by rw [hsplit]; exact List.mem_append_left _ hC
    have hlC : lookup w.players C.id = some C := lookup_of_mem_nodup hnd hCmem
    unfold collideWith
    rw [hlA, hlC]
    simp only
    by_cases hCa : C.alive = true
    · by_cases hCid : A.id = C.id
      · simp [hCid]
      · have ht : touches E A C = false := by
          rw [← Bool.not_eq_true, touches_iff]
          rintro ⟨seg, hseg, hlt⟩
          exact hfirst C hC hCa (fun e => hCid e.symm) seg hseg hlt
        simp [ht]
    · simp [hCa]
  -- the callback for `B` kills `A`
  have h2 : collideWith E A.id w B.id = killBy E w A B := by
    unfold collideWith
    rw [hlA, hlB]
    have ht : touches E A B = true := (touches_iff E A B).mpr hhit
    simp [hAalive, hBalive, hAB, ht]
  -- the callbacks after `B` find `A` dead
  have hdead : ∀ s, lookup (killBy E w A B).players A.id = some s → s.alive = false := by
    intro s hs
    rw [killBy_lookup E w A B hAB, if_pos rfl] at hs
    split_ifs at hs
    obtain rfl : _ = s := by simpa using hs
    rfl
  have h3 : (post.map fun p => p.id).foldl (collideWith E A.id) (killBy E w A B)
      = killBy E w A B :=
    foldl_collide_noop E A.id _ _ fun oid _ => collideWith_dead E A.id _ oid hdead
  have hall : snakeVsSnake E w A.id = killBy E w A B := by
    unfold snakeVsSnake
    rw [hsplit, List.map_append, List.foldl_append, h1, List.map_cons, List.foldl_cons, h2, h3]
  rw [hall]
  refine ⟨?_, ?_, ?_, (killBy_events E w A B).1⟩
  · rw [killBy_lookup E w A B hAB, if_pos rfl]
  · rw [killBy_lookup E w A B hAB, if_neg (fun e => hAB e.symm), if_pos rfl]
  · intro i h1 h2
    rw [killBy_lookup E w A B hAB, if_neg h1, if_neg h2]

/-- Witness of C1: `sampleVictim` runs into the head segment of `sampleSnake`. -/
theorem snakeVsSnake_kill_witness :
    lookup (snakeVsSnake sampleEnv sampleDuel sampleVictim.id).players sampleVictim.id =
      (if sampleVictim.isBot then none else some { sampleVictim with alive := false }) ∧
    lookup (snakeVsSnake sampleEnv sampleDuel sampleVictim.id).players sampleSnake.id =
      some { sampleSnake with score := sampleSnake.score + jsFloor (sampleVictim.score / 2) } ∧
    (∀ i, i ≠ sampleVictim.id → i ≠ sampleSnake.id →
      lookup (snakeVsSnake sampleEnv sampleDuel sampleVictim.id).players i =
        lookup sampleDuel.players i) ∧
    (snakeVsSnake sampleEnv sampleDuel sampleVictim.id).events =
      sampleDuel.events ++
        [Event.playerDied sampleVictim.id (some sampleSnake.id) sampleSnake.name
          sampleVictim.score] :=
  snakeVsSnake_kill sampleEnv sampleDuel sampleVictim sampleSnake [sampleVictim] [] (by unfold UniqueIds; decide!)
    rfl (by simp [sampleDuel]) (by decide!) (by decide!) (by decide!)
    ⟨⟨200, 200⟩, by decide!, by decide!⟩
    (by
      intro C hC _ hne
      obtain rfl : C = sampleVictim := by simpa using hC
      exact absurd rfl hne)

/-! ## Shape of the per-snake callback -/

theorem wallDeath_players (E : Env K) (w : World K) (m : Snake K) :
    (wallDeath E w m).players =
      (if m.isBot then deletePlayer (setPlayer w.players { m with alive := false }) m.id
       else setPlayer w.players { m with alive := false }) ∧
    (wallDeath E w m).events =
      w.events ++ [Event.playerDied m.id none "the void" m.score] ∧
    (wallDeath E w m).botCounter = w.botCounter := by
  unfold wallDeath
  simp only
  split_ifs <;>
    simp [(dropEvery_frame E 2 _ _).1, (dropEvery_frame E 2 _ _).2.1,
      (dropEvery_frame E 2 _ _).2.2]

theorem collideWith_cases (E : Env K) (pid : String) (w : World K) (oid : String) :
    collideWith E pid w oid = w ∨
    ∃ p o : Snake K, lookup w.players pid = some p ∧ lookup w.players oid = some o ∧
      p.alive = true ∧ o.alive = true ∧ p.id ≠ o.id ∧
      collideWith E pid w oid = killBy E w p o := by
  unfold collideWith
  cases hp : lookup w.players pid with
  | none => exact Or.inl rfl
  | some p =>
    cases ho : lookup w.players oid with
    | none => exact Or.inl rfl
    | some o =>
      simp only
      by_cases hoa : o.alive = true
      · by_cases hpa : p.alive = true
        · by_cases hid : p.id = o.id
          · simp [hid]
          · by_cases ht : touches E p o = true
            · right
              exact ⟨p, o, rfl, rfl, hpa, hoa, hid, by simp [hoa, hpa, hid, ht]⟩
            · simp [ht]
        · simp [hpa]
      · simp [hoa]

theorem updatePlayer_cases (E : Env K) (now : K) (w : World K) (pid : String) :
    updatePlayer E now w pid = w ∨
    ∃ player : Snake K, lookup w.players pid = some player ∧ player.alive = true ∧
      ((hitsWall (moveHead E now player) = true ∧
          updatePlayer E now w pid = wallDeath E w (moveHead E now player)) ∨
        (hitsWall (moveHead E now player) = false ∧
          updatePlayer E now w pid =
            snakeVsSnake E (afterWall E w (moveHead E now player)) pid)) := by
  unfold updatePlayer
  cases hp : lookup w.players pid with
  | none => exact Or.inl rfl
  | some player =>
    simp only
    by_cases ha : player.alive = true
    · right
      refine ⟨player, rfl, ha, ?_⟩
      have hma : (moveHead E now player).alive = true := (moveHead_fields E now player).2.1.trans ha
      by_cases hw : hitsWall (moveHead E now player) = true
      · left; simp [ha, hw, hma]
      · right; simp [ha, hw]
    · simp [ha]

/-- A property of worlds kept by every kill is kept by the snake-against-snake pass. -/
theorem snakeVsSnake_induct (E : Env K) (pid : String) (Φ : World K → Prop)
    (hkill : ∀ (w : World K) (p o : Snake K), Φ w → lookup w.players pid = some p →
      lookup w.players o.id = some o → p.alive = true → o.alive = true → p.id ≠ o.id →
      Φ (killBy E w p o)) :
    ∀ (ids : List String) (w : World K), Φ w → Φ (ids.foldl (collideWith E pid) w) := by
  intro ids
  induction ids with
  | nil => intro w h; exact h
  | cons oid ids ih =>
    intro w h
    rw [List.foldl_cons]
    apply ih
    rcases collideWith_cases E pid w oid with e | ⟨p, o, hp, ho, hpa, hoa, hne, e⟩
    · rw [e]; exact h
    · rw [e]
      exact hkill w p o h hp (by rw [lookup_some_id ho]; exact ho) hpa hoa hne

/-- A property of worlds kept by wall deaths, by the update of an alive snake and by kills is
kept by the per-snake callback. -/
theorem updatePlayer_induct (E : Env K) (now : K) (Φ : World K → Prop)
    (hwall : ∀ (w : World K) (p : Snake K), Φ w → lookup w.players p.id = some p →
      p.alive = true → Φ (wallDeath E w (moveHead E now p)))
    (hput : ∀ (w : World K) (p : Snake K), Φ w → lookup w.players p.id = some p →
      p.alive = true → Φ (afterWall E w (moveHead E now p)))
    (hkill : ∀ (w : World K) (p o : Snake K), Φ w → lookup w.players p.id = some p →
      lookup w.players o.id = some o → p.alive = true → o.alive = true → p.id ≠ o.id →
      Φ (killBy E w p o)) :
    ∀ (w : World K) (pid : String), Φ w → Φ (updatePlayer E now w pid) := by
  intro w pid h
  rcases updatePlayer_cases E now w pid with e | ⟨p, hp, hpa, ⟨_, e⟩ | ⟨_, e⟩⟩
  · rw [e]; exact h
  · rw [e]
    exact hwall w p h (by rw [lookup_some_id hp]; exact hp) hpa
  · rw [e]
    unfold snakeVsSnake
    apply snakeVsSnake_induct E pid Φ _ _ _
      (hput w p h (by rw [lookup_some_id hp]; exact hp) hpa)
    intro w' p' o h' hp' ho hpa' hoa hne
    exact hkill w' p' o h' (by rw [lookup_some_id hp']; exact hp') ho hpa' hoa hne

theorem motionPass_induct (E : Env K) (now : K) (Φ : World K → Prop)
    (hstep : ∀ (w : World K) (pid : String), Φ w → Φ (updatePlayer E now w pid)) :
    ∀ (ids : List String) (w : World K), Φ w → Φ (motionPass E now w ids) := by
  intro ids
  induction ids with
  | nil => intro w h; exact h
  | cons pid ids ih =>
    intro w h
    unfold motionPass
    rw [List.foldl_cons]
    exact ih _ (hstep w pid h)

/-! ## Invariants of the motion pass -/

theorem mem_setPlayer_self (ps : List (Snake K)) (s : Snake K) : s ∈ setPlayer ps s := by
  induction ps with
  | nil => simp [setPlayer]
  | cons q ps ih =>
    rw [setPlayer]
    split_ifs
    · exact List.mem_cons_self _ _
    · exact List.mem_cons_of_mem _ ih

theorem eq_of_id_eq {ps : List (Snake K)} (h : (ps.map fun p => p.id).Nodup) {x y : Snake K}
    (hx : x ∈ ps) (hy : y ∈ ps) (e : x.id = y.id) : x = y :=
  List.inj_on_of_nodup_map h hx hy e

theorem updatePlayer_uniqueIds (E : Env K) (now : K) (w : World K) (pid : String)
    (h : UniqueIds w) : UniqueIds (updatePlayer E now w pid) := by
  refine updatePlayer_induct E now UniqueIds ?_ ?_ ?_ w pid h
  · intro w p h _ _
    unfold UniqueIds at h ⊢
    rw [(wallDeath_players E w _).1]
    split_ifs
    · exact nodup_deletePlayer _ (nodup_setPlayer _ h)
    · exact nodup_setPlayer _ h
  · intro w p h _ _
    obtain ⟨q, hq, -⟩ := afterWall_spec E w (moveHead E now p)
    unfold UniqueIds at h ⊢
    rw [hq]
    exact nodup_setPlayer _ h
  · intro w p o h _ _ _ _ _
    unfold UniqueIds at h ⊢
    rw [killBy_players]
    split_ifs
    · exact nodup_deletePlayer _ (nodup_setPlayer _ (nodup_setPlayer _ h))
    · exact nodup_setPlayer _ (nodup_setPlayer _ h)

theorem updatePlayer_noDeadBots (E : Env K) (now : K) (w : World K) (pid : String)
    (h : NoDeadBots w) : NoDeadBots (updatePlayer E now w pid) := by
  refine updatePlayer_induct E now NoDeadBots ?_ ?_ ?_ w pid h
  · intro w p h _ _ x hx hbot
    rw [(wallDeath_players E w _).1] at hx
    split_ifs at hx with hb
    · obtain ⟨hx1, hx2⟩ := mem_deletePlayer.mp hx
      rcases mem_setPlayer hx1 with rfl | hx1
      · exact absurd rfl hx2
      · exact h x hx1 hbot
    · rcases mem_setPlayer hx with rfl | hx1
      · exact absurd hbot hb
      · exact h x hx1 hbot
  · intro w p h _ hpa x hx hbot
    obtain ⟨q, hq, -, hqa, -⟩ := afterWall_spec E w (moveHead E now p)
    rw [hq] at hx
    rcases mem_setPlayer hx with rfl | hx1
    · rw [hqa, (moveHead_fields E now p).2.1, hpa]
    · exact h x hx1 hbot
  · intro w p o h _ _ _ hoa _ x hx hbot
    rw [killBy_players] at hx
    split_ifs at hx with hb
    · obtain ⟨hx1, hx2⟩ := mem_deletePlayer.mp hx
      rcases mem_setPlayer hx1 with rfl | hx1
      · exact hoa
      · rcases mem_setPlayer hx1 with rfl | hx1
        · exact absurd rfl hx2
        · exact h x hx1 hbot
    · rcases mem_setPlayer hx with rfl | hx1
      · exact hoa
      · rcases mem_setPlayer hx1 with rfl | hx1
        · exact absurd hbot hb
        · exact h x hx1 hbot

theorem updatePlayer_deadOrGone (E : Env K) (now : K) (victim : String) (w : World K)
    (pid : String) (h : DeadOrGone w victim) : DeadOrGone (updatePlayer E now w pid) victim := by
  refine updatePlayer_induct E now (fun w => DeadOrGone w victim) ?_ ?_ ?_ w pid h
  · intro w p h _ _ x hx hid
    rw [(wallDeath_players E w _).1] at hx
    have hx' : x ∈ setPlayer w.players { moveHead E now p with alive := false } := by
      split_ifs at hx
      · exact (mem_deletePlayer.mp hx).1
      · exact hx
    rcases mem_setPlayer hx' with rfl | hx1
    · rfl
    · exact h x hx1 hid
  · intro w p h hp hpa x hx hid
    obtain ⟨q, hq, hqid, -⟩ := afterWall_spec E w (moveHead E now p)
    rw [hq] at hx
    rcases mem_setPlayer hx with rfl | hx1
    · have h1 := h p (lookup_mem hp) (by rw [← (moveHead_fields E now p).1, ← hqid, hid])
      rw [hpa] at h1
      exact absurd h1 (by simp)
    · exact h x hx1 hid
  · intro w p o h _ ho _ hoa _ x hx hid
    rw [killBy_players] at hx
    have hx' : x ∈ setPlayer (setPlayer w.players { p with alive := false })
        { o with score := o.score + jsFloor (p.score / 2) } := by
      split_ifs at hx
      · exact (mem_deletePlayer.mp hx).1
      · exact hx
    rcases mem_setPlayer hx' with rfl | hx1
    · have h1 := h o (lookup_mem ho) hid
      rw [hoa] at h1
      exact absurd h1 (by simp)
    · rcases mem_setPlayer hx1 with rfl | hx2
      · rfl
      · exact h x hx2 hid

theorem updatePlayer_events (E : Env K) (now : K) (w0 : World K) (w : World K) (pid : String)
    (h : w0.events <+: w.events ∧ w.botCounter = w0.botCounter) :
    w0.events <+: (updatePlayer E now w pid).events ∧
      (updatePlayer E now w pid).botCounter = w0.botCounter := by
  refine updatePlayer_induct E now
    (fun w => w0.events <+: w.events ∧ w.botCounter = w0.botCounter) ?_ ?_ ?_ w pid h
  · intro w p h _ _
    rw [(wallDeath_players E w _).2.1, (wallDeath_players E w _).2.2]
    exact ⟨h.1.trans (List.prefix_append _ _), h.2⟩
  · intro w p h _ _
    obtain ⟨q, -, -, -, -, -, -, -, he, hb⟩ := afterWall_spec E w (moveHead E now p)
    rw [he, hb]; exact h
  · intro w p o h _ _ _ _ _
    rw [(killBy_events E w p o).1, (killBy_events E w p o).2]
    exact ⟨h.1.trans (List.prefix_append _ _), h.2⟩

/-! ## Bot AI and bot maintenance keep the invariants -/

theorem botRetarget_fields (E : Env K) (c : Nat) (p : Snake K) :
    (botRetarget E c p).1.id = p.id ∧ (botRetarget E c p).1.alive = p.alive ∧
    (botRetarget E c p).1.isBot = p.isBot := by
  unfold botRetarget
  split_ifs <;> exact ⟨rfl, rfl, rfl⟩

theorem botSeekFood_fields (E : Env K) (foods : List (Food K)) (c : Nat) (p : Snake K) :
    (botSeekFood E foods c p).1.id = p.id ∧ (botSeekFood E foods c p).1.alive = p.alive ∧
    (botSeekFood E foods c p).1.isBot = p.isBot := by
  unfold botSeekFood
  split_ifs
  · cases jsIndex foods ⌊E.random (c + 1) * (foods.length : K)⌋ <;> exact ⟨rfl, rfl, rfl⟩
  · exact ⟨rfl, rfl, rfl⟩
  · exact ⟨rfl, rfl, rfl⟩

theorem botThink_fields (E : Env K) (foods : List (Food K)) (c : Nat) (p : Snake K) :
    (botThink E foods c p).1.id = p.id ∧ (botThink E foods c p).1.alive = p.alive ∧
    (botThink E foods c p).1.isBot = p.isBot := by
  unfold botThink
  split_ifs
  · obtain ⟨a1, a2, a3⟩ := botRetarget_fields E c p
    obtain ⟨b1, b2, b3⟩ := botSeekFood_fields E foods (botRetarget E c p).2 (botRetarget E c p).1
    exact ⟨b1.trans a1, b2.trans a2, b3.trans a3⟩
  · exact ⟨rfl, rfl, rfl⟩

theorem botAI_fields (E : Env K) (foods : List (Food K)) :
    ∀ (ps : List (Snake K)) (c : Nat),
      (botAI E foods c ps).1.map (fun p => p.id) = ps.map (fun p => p.id) ∧
      ∀ q ∈ (botAI E foods c ps).1, ∃ p ∈ ps, q.id = p.id ∧ q.alive = p.alive ∧
        q.isBot = p.isBot := by
  intro ps
  induction ps with
  | nil => intro c; simp [botAI]
  | cons p ps ih =>
    intro c
    obtain ⟨h1, h2, h3⟩ := botThink_fields E foods c p
    obtain ⟨g1, g2⟩ := ih (botThink E foods c p).2
    simp only [botAI, List.map_cons, h1, g1, true_and]
    intro q hq
    rcases List.mem_cons.mp hq with rfl | hq
    · exact ⟨p, List.mem_cons_self _ _, h1, h2, h3⟩
    · obtain ⟨p', hp', e⟩ := g2 q hq
      exact ⟨p', List.mem_cons_of_mem _ hp', e⟩

theorem afterAI_inv (E : Env K) (w : World K) :
    (UniqueIds w → UniqueIds (afterAI E w)) ∧ (NoDeadBots w → NoDeadBots (afterAI E w)) ∧
    (afterAI E w).events = w.events ∧ (afterAI E w).botCounter = w.botCounter ∧
    (afterAI E w).foodItems = w.foodItems := by
  obtain ⟨h1, h2⟩ := botAI_fields E w.foodItems w.players (w.calls + 1)
  refine ⟨fun h => ?_, fun h q hq hb => ?_, rfl, rfl, rfl⟩
  · unfold UniqueIds afterAI at *
    simpa only [h1] using h
  · obtain ⟨p, hp, e1, e2, e3⟩ := h2 q hq
    rw [e2]
    exact h p hp (e3 ▸ hb)

theorem iterate_induct {α : Type} (f : α → α) (Φ : α → Prop) (h : ∀ a, Φ a → Φ (f a)) :
    ∀ (k : Nat) (a : α), Φ a → Φ (f^[k] a) := by
  intro k
  induction k with
  | zero => intro a ha; exact ha
  | succ k ih => intro a ha; rw [Function.iterate_succ_apply]; exact ih _ (h a ha)

theorem manageBots_inv (E : Env K) (w : World K) :
    (UniqueIds w → UniqueIds (manageBots E w)) ∧
    (NoDeadBots w → NoDeadBots (manageBots E w)) ∧
    (manageBots E w).events = w.events ∧ (manageBots E w).foodItems = w.foodItems := by
  unfold manageBots
  refine ⟨fun h => ?_, fun h => ?_, ?_, ?_⟩
  · exact iterate_induct (spawnBot E) UniqueIds (fun a ha => nodup_setPlayer _ ha) _ w h
  · refine iterate_induct (spawnBot E) NoDeadBots (fun a ha x hx hb => ?_) _ w h
    rcases mem_setPlayer hx with rfl | hx
    · simp [createSnake]
    · exact ha x hx hb
  · exact iterate_induct (spawnBot E) (fun a => a.events = w.events)
      (fun a ha => ha) _ w rfl
  · exact iterate_induct (spawnBot E) (fun a => a.foodItems = w.foodItems)
      (fun a ha => ha) _ w rfl

theorem manageBots_deadOrGone (E : Env K) (w : World K) (victim : String)
    (hfresh : ∀ n, w.botCounter ≤ n → botIdOf n ≠ victim) (h : DeadOrGone w victim) :
    DeadOrGone (manageBots E w) victim := by
  unfold manageBots
  refine (iterate_induct (spawnBot E)
    (fun a => DeadOrGone a victim ∧ w.botCounter ≤ a.botCounter) (fun a ha => ?_) _ w
    ⟨h, le_refl _⟩).1
  refine ⟨fun x hx hid => ?_, Nat.le_succ_of_le ha.2⟩
  rcases mem_setPlayer hx with rfl | hx
  · exact absurd hid (hfresh _ ha.2)
  · exact ha.1 x hx hid

/-! ## The snapshot -/

theorem setView_of_fresh {vs : List (PlayerView K)} {v : PlayerView K}
    (h : ∀ u ∈ vs, u.id ≠ v.id) : setView vs v = vs ++ [v] := by
  induction vs with
  | nil => rfl
  | cons u us ih =>
    have hu : (u.id == v.id) = false := by simpa using h u (List.mem_cons_self _ _)
    rw [setView, hu]
    simp [ih fun p hp => h p (List.mem_cons_of_mem _ hp)]

theorem foldl_setView : ∀ (ps : List (Snake K)) (acc : List (PlayerView K)),
    (ps.map fun p => p.id).Nodup → (∀ p ∈ ps, ∀ v ∈ acc, v.id ≠ p.id) →
    ps.foldl (fun acc p => if p.alive then setView acc (viewPlayer p) else acc) acc =
      acc ++ (ps.filter fun p => p.alive).map viewPlayer := by
  intro ps
  induction ps with
  | nil => intro acc _ _; simp
  | cons p ps ih =>
    intro acc hnd hacc
    rw [List.map_cons, List.nodup_cons] at hnd
    rw [List.foldl_cons]
    by_cases hp : p.alive = true
    · rw [if_pos hp, setView_of_fresh (fun u hu => hacc p (List.mem_cons_self _ _) u hu),
        ih _ hnd.2]
      · simp [List.filter_cons, hp]
      · intro p' hp' v hv
        rcases List.mem_append.mp hv with hv | hv
        · exact hacc p' (List.mem_cons_of_mem _ hp') v hv
        · obtain rfl : v = viewPlayer p := by simpa using hv
          intro e
          exact hnd.1 (List.mem_map.mpr ⟨p', hp', e.symm⟩)
    · rw [if_neg hp, ih _ hnd.2 fun p' hp' => hacc p' (List.mem_cons_of_mem _ hp')]
      simp [List.filter_cons, hp]

theorem snapshotPlayers_eq (ps : List (Snake K)) (h : (ps.map fun p => p.id).Nodup) :
    snapshotPlayers ps = (ps.filter fun p => p.alive).map viewPlayer := by
  unfold snapshotPlayers
  rw [foldl_setView ps [] h (by simp)]
  rfl

/-! ## Invariants of the reachable states -/

theorem spawnFoodLoop_frame (E : Env K) : ∀ (n : Nat) (w : World K),
    (spawnFoodLoop E n w).players = w.players ∧
    (spawnFoodLoop E n w).foodItems.length = w.foodItems.length + n := by
  intro n
  induction n with
  | zero => intro w; exact ⟨rfl, rfl⟩
  | succ n ih =>
    intro w
    rw [spawnFoodLoop]
    obtain ⟨h1, h2⟩ := ih
      { w with foodItems := w.foodItems ++ [createFoodItem E w.calls],
               calls := w.calls + FOOD_READS }
    refine ⟨h1, ?_⟩
    rw [h2]
    simp
    omega

theorem motionPass_inv (E : Env K) (now : K) (w : World K) (ids : List String) :
    (UniqueIds w → UniqueIds (motionPass E now w ids)) ∧
    (NoDeadBots w → NoDeadBots (motionPass E now w ids)) ∧
    w.events <+: (motionPass E now w ids).events ∧
    (motionPass E now w ids).botCounter = w.botCounter ∧
    (∀ victim, DeadOrGone w victim → DeadOrGone (motionPass E now w ids) victim) := by
  refine ⟨?_, ?_, ?_, ?_, ?_⟩
  · exact motionPass_induct E now UniqueIds (updatePlayer_uniqueIds E now) ids w
  · exact motionPass_induct E now NoDeadBots (updatePlayer_noDeadBots E now) ids w
  · exact (motionPass_induct E now _ (updatePlayer_events E now w) ids w
      ⟨List.prefix_refl _, rfl⟩).1
  · exact (motionPass_induct E now _ (updatePlayer_events E now w) ids w
      ⟨List.prefix_refl _, rfl⟩).2
  · intro victim
    exact motionPass_induct E now (fun w => DeadOrGone w victim)
      (updatePlayer_deadOrGone E now victim) ids w

theorem gameLoop_inv (E : Env K) (w : World K) :
    (UniqueIds w → UniqueIds (gameLoop E w)) ∧ (NoDeadBots w → NoDeadBots (gameLoop E w)) := by
  obtain ⟨a1, a2, -⟩ := afterAI_inv E w
  obtain ⟨m1, m2, -⟩ := motionPass_inv E (tickNow E w) (afterAI E w)
    ((afterAI E w).players.map fun p => p.id)
  obtain ⟨b1, b2, -⟩ := manageBots_inv E
    (motionPass E (tickNow E w) (afterAI E w) ((afterAI E w).players.map fun p => p.id))
  exact ⟨fun h => b1 (m1 (a1 h)), fun h => b2 (m2 (a2 h))⟩

theorem reachable_inv (E : Env K) {w : World K} (h : Reachable E w) :
    UniqueIds w ∧ NoDeadBots w := by
  induction h with
  | init =>
    obtain ⟨b1, b2, -⟩ := manageBots_inv E (spawnInitialFood E emptyWorld)
    have hp : (spawnInitialFood E (emptyWorld : World K)).players = [] :=
      (spawnFoodLoop_frame E _ _).1
    refine ⟨b1 ?_, b2 ?_⟩
    · unfold UniqueIds; rw [hp]; exact List.nodup_nil
    · intro p hp'; rw [hp] at hp'; exact absurd hp' (List.not_mem_nil _)
  | tick _ ih => exact ⟨(gameLoop_inv E _).1 ih.1, (gameLoop_inv E _).2 ih.2⟩
  | @connect w socketId _ ih =>
    obtain ⟨b1, b2, -⟩ := manageBots_inv E
      { w with
        players := setPlayer w.players
          (createSnake E w.calls socketId ("Player_" ++ String.mk (socketId.data.take 4)) false)
        calls := w.calls + SNAKE_READS }
    refine ⟨b1 (nodup_setPlayer _ ih.1), b2 ?_⟩
    intro x hx hb
    rcases mem_setPlayer hx with rfl | hx
    · simp [createSnake]
    · exact ih.2 x hx hb
  | @disconnect w socketId _ ih =>
    unfold Slither.disconnect
    cases hl : lookup w.players socketId with
    | none =>
      obtain ⟨b1, b2, -⟩ := manageBots_inv E w
      exact ⟨b1 ih.1, b2 ih.2⟩
    | some player =>
      simp only
      have hpl : (if player.alive = true then dropEvery E 3 player w else w).players
          = w.players := by
        split_ifs
        · exact (dropEvery_frame E 3 player w).1
        · rfl
      obtain ⟨b1, b2, -⟩ := manageBots_inv E
        { (if player.alive = true then dropEvery E 3 player w else w) with
          players := deletePlayer
            (if player.alive = true then dropEvery E 3 player w else w).players socketId }
      refine ⟨b1 ?_, b2 ?_⟩
      · unfold UniqueIds
        simp only [hpl]
        exact nodup_deletePlayer _ ih.1
      · intro x hx hb
        simp only [hpl] at hx
        exact ih.2 x (mem_deletePlayer.mp hx).1 hb
  | @input w socketId angle boosting _ ih =>
    unfold playerInput
    cases hl : lookup w.players socketId with
    | none => exact ih
    | some player =>
      simp only
      split_ifs with ha
      · refine ⟨nodup_setPlayer _ ih.1, ?_⟩
        intro x hx hb
        rcases mem_setPlayer hx with rfl | hx
        · exact ha
        · exact ih.2 x hx hb
      · exact ih
  | @respawn w socketId _ ih =>
    unfold requestRespawn
    cases hl : lookup w.players socketId with
    | none =>
      simp only
      refine ⟨nodup_setPlayer _ ih.1, ?_⟩
      intro x hx hb
      rcases mem_setPlayer hx with rfl | hx
      · simp [createSnake]
      · exact ih.2 x hx hb
    | some player =>
      simp only
      split_ifs with ha
      · refine ⟨nodup_setPlayer _ ih.1, ?_⟩
        intro x hx hb
        rcases mem_setPlayer hx with rfl | hx
        · simp [createSnake]
        · exact ih.2 x hx hb
      · exact ih

/-- C9: at the end of a tick from any reachable state, the last message emitted is the
`gameState` snapshot, its players are exactly the views of the snakes of the world whose `alive`
flag is true, and no snake with `isBot = true` and `alive = false` is present in the world; the
latter holds in every reachable state. -/
theorem snapshot_alive_only (E : Env K) (w : World K) (h : Reachable E w) :
    (∃ evs, (gameLoop E w).events = evs ++
      [Event.gameState (((gameLoop E w).players.filter fun p => p.alive).map viewPlayer)
        ((gameLoop E w).foodItems.map viewFood)]) ∧
    (∀ p ∈ (gameLoop E w).players, p.isBot = true → p.alive = true) ∧
    (∀ w', Reachable E w' → ∀ p ∈ w'.players, p.isBot = true → p.alive = true) := by
  obtain ⟨hu, hd⟩ := reachable_inv E (Reachable.tick h)
  refine ⟨⟨(manageBots E (motionPass E (tickNow E w) (afterAI E w)
        ((afterAI E w).players.map fun p => p.id))).events, ?_⟩, hd,
    fun w' hw' => (reachable_inv E hw').2⟩
  have : (gameLoop E w).events =
      (manageBots E (motionPass E (tickNow E w) (afterAI E w)
        ((afterAI E w).players.map fun p => p.id))).events ++
      [Event.gameState (snapshotPlayers (gameLoop E w).players)
        ((gameLoop E w).foodItems.map viewFood)] := rfl
  rw [this, snapshotPlayers_eq _ hu]

/-- Witness of C9: the first tick after start-up. -/
theorem snapshot_alive_only_witness :
    (∃ evs, (gameLoop sampleEnv (initGame sampleEnv)).events = evs ++
      [Event.gameState
        (((gameLoop sampleEnv (initGame sampleEnv)).players.filter fun p => p.alive).map
          viewPlayer)
        ((gameLoop sampleEnv (initGame sampleEnv)).foodItems.map viewFood)]) ∧
    (∀ p ∈ (gameLoop sampleEnv (initGame sampleEnv)).players, p.isBot = true → p.alive = true) ∧
    (∀ w', Reachable sampleEnv w' → ∀ p ∈ w'.players, p.isBot = true → p.alive = true) :=
  snapshot_alive_only sampleEnv (initGame sampleEnv) Reachable.init

/-! ## Death at the wall -/

theorem hitsWall_iff (p : Snake K) :
    hitsWall p = true ↔
      (p.x - (SNAKE_BASE_SIZE : K) * p.sizeMultiplier / 2 < 0 ∨
        p.x + (SNAKE_BASE_SIZE : K) * p.sizeMultiplier / 2 > (GAME_WORLD_WIDTH : K) ∨
        p.y - (SNAKE_BASE_SIZE : K) * p.sizeMultiplier / 2 < 0 ∨
        p.y + (SNAKE_BASE_SIZE : K) * p.sizeMultiplier / 2 > (GAME_WORLD_HEIGHT : K)) := by
  simp [hitsWall, headRadius, or_assoc]

theorem motionPass_append (E : Env K) (now : K) (w : World K) (pre rest : List String)
    (pid : String) :
    motionPass E now w (pre ++ pid :: rest) =
      motionPass E now (updatePlayer E now (motionPass E now w pre) pid) rest := by
  unfold motionPass
  rw [List.foldl_append, List.foldl_cons]

/-- C3: in a tick from a world with distinct keys, let `P` be the snake stored under `pid`
when its callback starts (after the AI pass and the callbacks of the snakes before it), alive, with
`pid` not a bot id still to be handed out, `M` the snake after heading, boost and translation and
`r = SNAKE_BASE_SIZE * sizeMultiplier / 2`.  If `M.x - r < 0` or `M.x + r > GAME_WORLD_WIDTH` or
`M.y - r < 0` or `M.y + r > GAME_WORLD_HEIGHT`, the callback leaves the snake with `alive = false`
(a bot is deleted), its segments are those of `P`, the event `playerDied` with `killerId` null is
emitted and is in the log when the tick ends, no alive snake is stored under `pid` when the
tick ends, and the snapshot of the tick has no player `pid`.  If none of the four holds, the
callback goes on to segments, food and collisions with `alive` still true. -/
theorem wall_death (E : Env K) (w : World K) (pre rest : List String) (pid : String)
    (P : Snake K) (hnd : UniqueIds w)
    (hids : ((afterAI E w).players.map fun p => p.id) = pre ++ pid :: rest)
    (hP : lookup (motionPass E (tickNow E w) (afterAI E w) pre).players pid = some P)
    (halive : P.alive = true)
    (hfresh : ∀ n, w.botCounter ≤ n → botIdOf n ≠ pid) :
    let now := tickNow E w
    let wp := motionPass E now (afterAI E w) pre
    let M := moveHead E now P
    let r := (SNAKE_BASE_SIZE : K) * P.sizeMultiplier / 2
    ((M.x - r < 0 ∨ M.x + r > (GAME_WORLD_WIDTH : K) ∨ M.y - r < 0 ∨
        M.y + r > (GAME_WORLD_HEIGHT : K)) →
      lookup (updatePlayer E now wp pid).players pid =
        (if P.isBot then none else some { M with alive := false }) ∧
      M.segments = P.segments ∧
      (updatePlayer E now wp pid).events =
        wp.events ++ [Event.playerDied pid none "the void" M.score] ∧
      Event.playerDied pid none "the void" M.score ∈ (gameLoop E w).events ∧
      DeadOrGone (gameLoop E w) pid ∧
      ∃ evs views foods, (gameLoop E w).events = evs ++ [Event.gameState views foods] ∧
        ∀ v ∈ views, v.id ≠ pid) ∧
    (¬ (M.x - r < 0 ∨ M.x + r > (GAME_WORLD_WIDTH : K) ∨ M.y - r < 0 ∨
        M.y + r > (GAME_WORLD_HEIGHT : K)) →
      updatePlayer E now wp pid = snakeVsSnake E (afterWall E wp M) pid ∧
      ∃ q, lookup (afterWall E wp M).players pid = some q ∧ q.alive = true ∧
        (afterWall E wp M).events = wp.events) := by
  intro now wp M r
  obtain ⟨hMid, hMalive, hMbot, -, hMseg, hMsize⟩ := moveHead_fields E now P
  have hPid : P.id = pid := lookup_some_id hP
  have hwall : hitsWall M = true ↔ (M.x - r < 0 ∨ M.x + r > (GAME_WORLD_WIDTH : K) ∨
      M.y - r < 0 ∨ M.y + r > (GAME_WORLD_HEIGHT : K)) := by
    rw [hitsWall_iff, hMsize]
  have hwpU : UniqueIds wp := (motionPass_inv E now (afterAI E w) pre).1 ((afterAI_inv E w).1 hnd)
  constructor
  · intro hhit
    have hw : hitsWall M = true := hwall.mpr hhit
    have hupd : updatePlayer E now wp pid = wallDeath E wp M := by
      unfold updatePlayer
      rw [hP]
      simp [halive, hw, hMalive, M, now]
    obtain ⟨wd1, wd2, wd3⟩ := wallDeath_players E wp M
    have hlook : lookup (updatePlayer E now wp pid).players pid =
        (if P.isBot then none else some { M with alive := false }) := by
      rw [hupd, wd1]
      by_cases hb : P.isBot = true
      · rw [if_pos (hMbot.trans hb), if_pos hb, lookup_deletePlayer,
          if_pos (hMid.trans hPid).symm]
      · rw [if_neg (fun e => hb (hMbot.symm.trans e)), if_neg hb, lookup_setPlayer,
          if_pos (hMid.trans hPid)]
    have hev : (updatePlayer E now wp pid).events =
        wp.events ++ [Event.playerDied pid none "the void" M.score] := by
      rw [hupd, wd2, hMid, hPid]
    -- no alive snake under `pid` after the callback
    have hgone : DeadOrGone (updatePlayer E now wp pid) pid := by
      intro x hx hid
      rw [hupd, wd1] at hx
      split_ifs at hx
      · exact absurd (hid.trans (hMid.trans hPid).symm) (mem_deletePlayer.mp hx).2
      · have hU : ((setPlayer wp.players { M with alive := false }).map fun p => p.id).Nodup :=
          nodup_setPlayer _ hwpU
        have := eq_of_id_eq hU hx (mem_setPlayer_self _ _)
          (hid.trans (hMid.trans hPid).symm)
        rw [this]
    -- the rest of the tick
    have hloop : gameLoop E w = finishTick E
        (motionPass E now (updatePlayer E now wp pid) rest) := by
      unfold gameLoop
      rw [hids, motionPass_append]
    obtain ⟨-, -, mev, mbc, mgone⟩ := motionPass_inv E now (updatePlayer E now wp pid) rest
    set wr := motionPass E now (updatePlayer E now wp pid) rest with hwr
    have hbc : wr.botCounter = w.botCounter := by
      rw [mbc, hupd, wd3]
      exact (motionPass_inv E now (afterAI E w) pre).2.2.2.1
    have hfinal : DeadOrGone (manageBots E wr) pid :=
      manageBots_deadOrGone E wr pid (by rw [hbc]; exact hfresh) (mgone pid hgone)
    have hfe : (gameLoop E w).events = (manageBots E wr).events ++
        [Event.gameState (snapshotPlayers (manageBots E wr).players)
          ((manageBots E wr).foodItems.map viewFood)] := by
      rw [hloop]; rfl
    have hfp : (gameLoop E w).players = (manageBots E wr).players := by
      rw [hloop]; rfl
    have hU : UniqueIds (gameLoop E w) := (gameLoop_inv E w).1 hnd
    refine ⟨hlook, hMseg, hev, ?_, ?_, ?_⟩
    · rw [hfe, (manageBots_inv E wr).2.2.1]
      apply List.mem_append_left
      apply mev.subset
      rw [hev]
      simp
    · intro x hx hid
      rw [hfp] at hx
      exact hfinal x hx hid
    · refine ⟨_, _, _, hfe, ?_⟩
      intro v hv hid
      have hU' : ((manageBots E wr).players.map fun p => p.id).Nodup := by
        rw [← hfp]; exact hU
      rw [snapshotPlayers_eq _ hU'] at hv
      obtain ⟨p, hp, rfl⟩ := List.mem_map.mp hv
      obtain ⟨hp1, hp2⟩ := List.mem_filter.mp hp
      have := hfinal p hp1 hid
      rw [this] at hp2
      exact absurd hp2 (by simp)
  · intro hno
    have hw : hitsWall M = false := by
      rw [← Bool.not_eq_true, hwall]; exact hno
    have hupd : updatePlayer E now wp pid = snakeVsSnake E (afterWall E wp M) pid := by
      unfold updatePlayer
      rw [hP]
      simp [halive, hw, M, now]
    obtain ⟨q, hq, hqid, hqa, -, -, -, -, hqe, -⟩ := afterWall_spec E wp M
    refine ⟨hupd, q, ?_, by rw [hqa, hMalive, halive], hqe⟩
    rw [hq, lookup_setPlayer, if_pos (hqid.trans (hMid.trans hPid))]

theorem botIdOf_ne_s1 (n : Nat) : botIdOf n ≠ "s1" := by
  intro e
  have := congrArg String.data e
  rw [botIdOf_data] at this
  change _ = ['s', '1'] at this
  exact absurd (List.head_eq_of_cons_eq this) (by decide)

/-- Witness of C3: `sampleRunner` steps from `x = 1990` to `x = 1996`, and `1996 + 8 > 2000`. -/
theorem wall_death_witness :
    lookup (updatePlayer sampleEnv (tickNow sampleEnv sampleEdge)
        (motionPass sampleEnv (tickNow sampleEnv sampleEdge) (afterAI sampleEnv sampleEdge) [])
        "s1").players "s1" =
      (if sampleRunner.isBot then none
       else some { moveHead sampleEnv (tickNow sampleEnv sampleEdge) sampleRunner with
                   alive := false }) ∧
    Event.playerDied "s1" none "the void"
        (moveHead sampleEnv (tickNow sampleEnv sampleEdge) sampleRunner).score ∈
      (gameLoop sampleEnv sampleEdge).events ∧
    DeadOrGone (gameLoop sampleEnv sampleEdge) "s1" :=
  have h := (wall_death sampleEnv sampleEdge [] [] "s1" sampleRunner
    (by unfold UniqueIds; decide!) (by decide!) (by decide!) (by decide!)
    (fun n _ => botIdOf_ne_s1 n)).1 (by decide!)
  ⟨h.1, h.2.2.2.1, h.2.2.2.2.1⟩

/-! ## Food count -/

/-- C12: for a snake with `score ≥ 0`, and `Math.pow` non-negative on non-negative bases, the
growth recompute sets `targetLength = SNAKE_INITIAL_LENGTH + floor(score / 50)`, which is at least
`SNAKE_INITIAL_LENGTH`, and `sizeMultiplier = 1 + (score / 1000) ^ (1 / 5)`, which is at least 1. -/
theorem grow_bounds (E : Env K) (hpow : ∀ b e : K, 0 ≤ b → 0 ≤ E.pow b e) (p : Snake K)
    (hs : 0 ≤ p.score) :
    (grow E p).targetLength = (SNAKE_INITIAL_LENGTH : K) + jsFloor (p.score / 50) ∧
    (SNAKE_INITIAL_LENGTH : K) ≤ (grow E p).targetLength ∧
    (grow E p).sizeMultiplier = 1 + E.pow (p.score / 1000) (1 / 5) ∧
    1 ≤ (grow E p).sizeMultiplier := by
  refine ⟨rfl, ?_, rfl, ?_⟩
  · have h0 : (0 : K) ≤ p.score / 50 := div_nonneg hs (by norm_num)
    have h1 : (0 : Int) ≤ ⌊p.score / 50⌋ := Int.floor_nonneg.mpr h0
    have h2 : (0 : K) ≤ jsFloor (p.score / 50) := by
      unfold jsFloor
      exact_mod_cast h1
    simp only [grow]
    linarith
  · have h0 : (0 : K) ≤ p.score / 1000 := div_nonneg hs (by norm_num)
    have := hpow (p.score / 1000) (1 / 5) h0
    simp only [grow]
    linarith

/-- Witness of C12 over the reals, with the real power function, on a fresh snake. -/
theorem grow_bounds_witness :
    (SNAKE_INITIAL_LENGTH : ℝ) ≤
      (grow
        { pi := Real.pi, sqrt := Real.sqrt, cos := Real.cos, sin := Real.sin,
          atan2 := fun y x => Complex.arg (Complex.mk x y), pow := fun b e => b ^ e,
          random := fun _ => 0, dateNow := fun _ => 0, foodIdOf := fun _ _ => "food" }
        (createSnake
          { pi := Real.pi, sqrt := Real.sqrt, cos := Real.cos, sin := Real.sin,
            atan2 := fun y x => Complex.arg (Complex.mk x y), pow := fun b e => b ^ e,
            random := fun _ => 0, dateNow := fun _ => 0, foodIdOf := fun _ _ => "food" }
          0 "s1" "Player_s1" false)).targetLength ∧
    (1 : ℝ) ≤
      (grow
        { pi := Real.pi, sqrt := Real.sqrt, cos := Real.cos, sin := Real.sin,
          atan2 := fun y x => Complex.arg (Complex.mk x y), pow := fun b e => b ^ e,
          random := fun _ => 0, dateNow := fun _ => 0, foodIdOf := fun _ _ => "food" }
        (createSnake
          { pi := Real.pi, sqrt := Real.sqrt, cos := Real.cos, sin := Real.sin,
            atan2 := fun y x => Complex.arg (Complex.mk x y), pow := fun b e => b ^ e,
            random := fun _ => 0, dateNow := fun _ => 0, foodIdOf := fun _ _ => "food" }
          0 "s1" "Player_s1" false)).sizeMultiplier :=
  have h := grow_bounds
    { pi := Real.pi, sqrt := Real.sqrt, cos := Real.cos, sin := Real.sin,
      atan2 := fun y x => Complex.arg (Complex.mk x y), pow := fun b e => b ^ e,
      random := fun _ => 0, dateNow := fun _ => 0, foodIdOf := fun _ _ => "food" }
    (fun b e hb => Real.rpow_nonneg hb e)
    (createSnake
      { pi := Real.pi, sqrt := Real.sqrt, cos := Real.cos, sin := Real.sin,
        atan2 := fun y x => Complex.arg (Complex.mk x y), pow := fun b e => b ^ e,
        random := fun _ => 0, dateNow := fun _ => 0, foodIdOf := fun _ _ => "food" }
      0 "s1" "Player_s1" false)
    (by simp [createSnake])
  ⟨h.2.1, h.2.2.2⟩

/-- C13 (amended): the segment count after the unshift and the trimming loop is
`min(n + 1, max(2, floor(targetLength)))` for a snake with `n` segments, and relaxation keeps it;
so the body grows by at most one segment per tick and is left with at least 2 segments when
`n ≥ 1`; a snake more than one segment short of its target stays below the target, and a snake
exactly one segment short reaches it. -/
theorem segment_step (E : Env K) (p : Snake K) :
    let count := (trimSegments p.targetLength ({ x := p.x, y := p.y } :: p.segments)).length
    let target := (max 2 ⌊p.targetLength⌋).toNat
    count = min (p.segments.length + 1) target ∧
    (updateSegments E p).segments.length = count ∧
    count ≤ p.segments.length + 1 ∧
    (1 ≤ p.segments.length → 2 ≤ count) ∧
    (p.segments.length + 1 < target → count < target) ∧
    (p.segments.length + 1 = target → count = target) := by
  intro count target
  have hlen : count = min target (p.segments.length + 1) := by
    simp only [count, target, trimSegments_eq_take, List.length_take, List.length_cons]
  have ht : 2 ≤ target := by
    have : (2 : Int) ≤ max 2 ⌊p.targetLength⌋ := le_max_left _ _
    simp only [target]
    omega
  have hupd : (updateSegments E p).segments.length = count := by
    simp [updateSegments, relax_length, count]
  refine ⟨?_, hupd, ?_, ?_, ?_, ?_⟩ <;> rw [hlen] <;> omega

/-- C13 (counterexample): a snake with 13 segments and `targetLength = 14` is shorter than its
target and has 14 segments, its target, after one unshift-and-trim step. -/
theorem segment_step_counterexample :
    let p := moveHead sampleEnv 0 sampleGrown
    p.alive = true ∧ hitsWall p = false ∧ p.segments.length = 13 ∧
    max 2 ⌊p.targetLength⌋ = 14 ∧
    (trimSegments p.targetLength ({ x := p.x, y := p.y } :: p.segments)).length = 14 := by
  decide!

/-! ## An induction principle for the reachable states -/

theorem wallDeath_food (E : Env K) (w : World K) (m : Snake K) :
    (wallDeath E w m).foodItems =
      (dropEvery E 2 { m with alive := false }
        { w with players := setPlayer w.players { m with alive := false } }).foodItems := by
  unfold wallDeath
  simp only
  split_ifs <;> rfl

theorem killBy_food (E : Env K) (w : World K) (p o : Snake K) :
    (killBy E w p o).foodItems =
      (dropEvery E 2 { p with alive := false }
        { w with players := setPlayer w.players { p with alive := false } }).foodItems := by
  unfold killBy
  simp only
  split_ifs <;> rfl

theorem dropEvery_food (E : Env K) (F : Food K → Prop)
    (hdrop : ∀ (w : World K) (s : Snake K) (k : Nat), (∀ f ∈ w.foodItems, F f) →
      ∀ f ∈ (dropFoodFromSnake E w s k).foodItems, F f)
    (stride : Nat) (s : Snake K) (w : World K) (h : ∀ f ∈ w.foodItems, F f) :
    ∀ f ∈ (dropEvery E stride s w).foodItems, F f := by
  unfold dropEvery
  generalize List.range' 0 ((s.segments.length + stride - 1) / stride) stride = ks
  induction ks generalizing w with
  | nil => exact h
  | cons k ks ih =>
    rw [List.foldl_cons]
    exact ih _ (hdrop w s k h)

theorem eatFood_food (E : Env K) (F : Food K → Prop) (hfood : ∀ c, F (createFoodItem E c))
    (st : EatState K) (h : ∀ f ∈ st.foodItems, F f) : ∀ f ∈ (eatFood E st).foodItems, F f := by
  obtain ⟨added, h1, h2, -⟩ := eatLoop_spec E st.foodItems.length st (le_refl _)
  intro f hf
  rw [eatFood, h1] at hf
  simp only [List.take_length, List.drop_length, List.append_nil] at hf
  rcases List.mem_append.mp hf with hf | hf
  · exact h f (List.mem_filter.mp hf).1
  · obtain ⟨c, rfl⟩ := h2 f hf
    exact hfood c

theorem spawnFoodLoop_food (E : Env K) (F : Food K → Prop) (hfood : ∀ c, F (createFoodItem E c)) :
    ∀ (n : Nat) (w : World K), (∀ f ∈ w.foodItems, F f) →
      ∀ f ∈ (spawnFoodLoop E n w).foodItems, F f := by
  intro n
  induction n with
  | zero => intro w h; exact h
  | succ n ih =>
    intro w h
    rw [spawnFoodLoop]
    apply ih
    intro f hf
    rcases List.mem_append.mp hf with hf | hf
    · exact h f hf
    · obtain rfl : f = createFoodItem E w.calls := by simpa using hf
      exact hfood _

theorem botAI_all (E : Env K) (G : Snake K → Prop) (foods : List (Food K))
    (hAI : ∀ (c : Nat) (p : Snake K), G p → G (botThink E foods c p).1) :
    ∀ (ps : List (Snake K)) (c : Nat), (∀ p ∈ ps, G p) → ∀ q ∈ (botAI E foods c ps).1, G q := by
  intro ps
  induction ps with
  | nil => intro c _ q hq; simp [botAI] at hq
  | cons p ps ih =>
    intro c h q hq
    simp only [botAI] at hq
    rcases List.mem_cons.mp hq with rfl | hq
    · exact hAI c p (h p (List.mem_cons_self _ _))
    · exact ih _ (fun p' hp' => h p' (List.mem_cons_of_mem _ hp')) q hq

theorem manageBots_all (E : Env K) (G : Snake K → Prop) (F : Food K → Prop)
    (hcreate : ∀ (c : Nat) (id name : String) (b : Bool), G (createSnake E c id name b))
    (w : World K) (h : Invariant G F w) : Invariant G F (manageBots E w) := by
  unfold manageBots
  refine iterate_induct (spawnBot E) (Invariant G F) (fun a ha => ⟨fun x hx => ?_, ha.2⟩) _ w h
  rcases mem_setPlayer hx with rfl | hx
  · exact hcreate _ _ _ _
  · exact ha.1 x hx

/-- A snake property `G` and a food property `F` hold in every reachable state when new
snakes and food items have them and each mutation of the tick and of the connection handlers
keeps them. -/
theorem reachable_induct (E : Env K) (G : Snake K → Prop) (F : Food K → Prop)
    (hcreate : ∀ (c : Nat) (id name : String) (b : Bool), G (createSnake E c id name b))
    (hfood : ∀ c, F (createFoodItem E c))
    (hdrop : ∀ (w : World K) (s : Snake K) (k : Nat), (∀ f ∈ w.foodItems, F f) →
      ∀ f ∈ (dropFoodFromSnake E w s k).foodItems, F f)
    (hAI : ∀ (foods : List (Food K)) (c : Nat) (p : Snake K), G p →
      G (botThink E foods c p).1)
    (hinput : ∀ (p : Snake K) (angle : K) (b : Bool), G p → p.alive = true →
      G { p with targetAngle := angle, boosting := b })
    (hdead : ∀ (now : K) (p : Snake K), G p → p.alive = true →
      G { moveHead E now p with alive := false })
    (hlive : ∀ (now : K) (p : Snake K) (foods : List (Food K)) (c : Nat), G p →
      p.alive = true → (∀ f ∈ foods, F f) →
      G (eatFood E ⟨grow E (updateSegments E (moveHead E now p)), foods, c⟩).player)
    (hkilled : ∀ p : Snake K, G p → G { p with alive := false })
    (hkiller : ∀ o p : Snake K, G o → G p → o.alive = true →
      G { o with score := o.score + jsFloor (p.score / 2) })
    {w : World K} (h : Reachable E w) : Invariant G F w := by
  have hset : ∀ (w : World K) (s : Snake K), (∀ p ∈ w.players, G p) → G s →
      ∀ p ∈ setPlayer w.players s, G p := by
    intro w s hw hs p hp
    rcases mem_setPlayer hp with rfl | hp
    · exact hs
    · exact hw p hp
  have htick : ∀ w : World K, Invariant G F w → Invariant G F (gameLoop E w) := by
    intro w hw
    have h1 : Invariant G F (afterAI E w) :=
      ⟨botAI_all E G w.foodItems (hAI w.foodItems) w.players (w.calls + 1) hw.1, hw.2⟩
    have h2 := motionPass_induct E (tickNow E w) (Invariant G F)
      (updatePlayer_induct E (tickNow E w) (Invariant G F) ?_ ?_ ?_)
      ((afterAI E w).players.map fun p => p.id) (afterAI E w) h1
    · exact manageBots_all E G F hcreate _ h2
    · intro v p hw hp hpa
      have hd := hdead (tickNow E w) p (hw.1 p (lookup_mem hp)) hpa
      refine ⟨?_, ?_⟩
      · intro x hx
        rw [(wallDeath_players E v _).1] at hx
        have hx' : x ∈ setPlayer v.players { moveHead E (tickNow E w) p with alive := false } := by
          split_ifs at hx
          · exact (mem_deletePlayer.mp hx).1
          · exact hx
        exact hset v _ hw.1 hd x hx'
      · rw [wallDeath_food]
        exact dropEvery_food E F hdrop 2 _ _ hw.2
    · intro v p hw hp hpa
      exact ⟨hset v _ hw.1 (hlive (tickNow E w) p v.foodItems v.calls (hw.1 p (lookup_mem hp)) hpa hw.2),
        eatFood_food E F hfood _ hw.2⟩
    · intro v p o hw hp ho hpa hoa hne
      have hGp := hw.1 p (lookup_mem hp)
      have hGo := hw.1 o (lookup_mem ho)
      refine ⟨?_, ?_⟩
      · intro x hx
        rw [killBy_players] at hx
        have hx' : x ∈ setPlayer (setPlayer v.players { p with alive := false })
            { o with score := o.score + jsFloor (p.score / 2) } := by
          split_ifs at hx
          · exact (mem_deletePlayer.mp hx).1
          · exact hx
        rcases mem_setPlayer hx' with rfl | hx''
        · exact hkiller o p hGo hGp hoa
        · exact hset v _ hw.1 (hkilled p hGp) x hx''
      · rw [killBy_food]
        exact dropEvery_food E F hdrop 2 _ _ hw.2
  induction h with
  | init =>
    apply manageBots_all E G F hcreate
    refine ⟨?_, ?_⟩
    · intro p hp
      rw [show (spawnInitialFood E (emptyWorld : World K)).players = []
        from (spawnFoodLoop_frame E _ _).1] at hp
      exact absurd hp (List.not_mem_nil _)
    · exact spawnFoodLoop_food E F hfood _ _ (fun f hf => absurd hf (List.not_mem_nil _))
  | tick _ ih => exact htick _ ih
  | @connect w socketId _ ih =>
    exact manageBots_all E G F hcreate _ ⟨hset w _ ih.1 (hcreate _ _ _ _), ih.2⟩
  | @disconnect w socketId _ ih =>
    unfold Slither.disconnect
    cases hl : lookup w.players socketId with
    | none => exact manageBots_all E G F hcreate _ ih
    | some player =>
      simp only
      apply manageBots_all E G F hcreate
      by_cases ha : player.alive = true
      · simp only [ha, if_true]
        refine ⟨fun x hx => ?_, dropEvery_food E F hdrop 3 player w ih.2⟩
        have hx' := (mem_deletePlayer.mp hx).1
        rw [(dropEvery_frame E 3 player w).1] at hx'
        exact ih.1 x hx'
      · simp only [ha, Bool.false_eq_true, if_false]
        exact ⟨fun x hx => ih.1 x (mem_deletePlayer.mp hx).1, ih.2⟩
  | @input w socketId angle boosting _ ih =>
    unfold playerInput
    cases hl : lookup w.players socketId with
    | none => exact ih
    | some player =>
      simp only
      split_ifs with ha
      · exact ⟨hset w _ ih.1 (hinput player angle boosting (ih.1 player (lookup_mem hl)) ha), ih.2⟩
      · exact ih
  | @respawn w socketId _ ih =>
    unfold requestRespawn
    cases hl : lookup w.players socketId with
    | none => exact ⟨hset w _ ih.1 (hcreate _ _ _ _), ih.2⟩
    | some player =>
      simp only
      split_ifs with ha
      · exact ⟨hset w _ ih.1 (hcreate _ _ _ _), ih.2⟩
      · exact ih

/-! ## Score floor and head/segment agreement -/

theorem botThink_body (E : Env K) (foods : List (Food K)) (c : Nat) (p : Snake K) :
    (botThink E foods c p).1.score = p.score ∧ (botThink E foods c p).1.x = p.x ∧
    (botThink E foods c p).1.y = p.y ∧ (botThink E foods c p).1.segments = p.segments := by
  have hr : ∀ (c : Nat) (p : Snake K), (botRetarget E c p).1.score = p.score ∧
      (botRetarget E c p).1.x = p.x ∧ (botRetarget E c p).1.y = p.y ∧
      (botRetarget E c p).1.segments = p.segments := by
    intro c p
    unfold botRetarget
    split_ifs <;> exact ⟨rfl, rfl, rfl, rfl⟩
  have hs : ∀ (c : Nat) (p : Snake K), (botSeekFood E foods c p).1.score = p.score ∧
      (botSeekFood E foods c p).1.x = p.x ∧ (botSeekFood E foods c p).1.y = p.y ∧
      (botSeekFood E foods c p).1.segments = p.segments := by
    intro c p
    unfold botSeekFood
    split_ifs
    · cases jsIndex foods ⌊E.random (c + 1) * (foods.length : K)⌋ <;> exact ⟨rfl, rfl, rfl, rfl⟩
    · exact ⟨rfl, rfl, rfl, rfl⟩
    · exact ⟨rfl, rfl, rfl, rfl⟩
  unfold botThink
  split_ifs
  · obtain ⟨a1, a2, a3, a4⟩ := hr c p
    obtain ⟨b1, b2, b3, b4⟩ := hs (botRetarget E c p).2 (botRetarget E c p).1
    exact ⟨b1.trans a1, b2.trans a2, b3.trans a3, b4.trans a4⟩
  · exact ⟨rfl, rfl, rfl, rfl⟩

theorem boostStep_score (now : K) (p : Snake K) :
    (boostStep now p).1.score = p.score ∨
    ((boostStep now p).1.score = p.score - 1 / 2 ∧ 250 < p.score) := by
  by_cases h1 : p.boosting = true ∧ p.score > 250 ∧ p.boostCooldown ≤ 0
  · right
    have h2 : ¬ p.score - 1 / 2 < 200 := by linarith [h1.2.1]
    refine ⟨?_, h1.2.1⟩
    simp only [boostStep, if_pos h1, if_neg h2]
    split_ifs <;> rfl
  · left
    simp only [boostStep, if_neg h1]

theorem moveHead_score (E : Env K) (now : K) (p : Snake K) (h : 200 ≤ p.score) :
    200 ≤ (moveHead E now p).score := by
  have e : (moveHead E now p).score = (boostStep now (steer E p)).1.score := by
    simp only [moveHead, translate, cooldownStep]
    split_ifs <;> rfl
  rw [e]
  have hs : (steer E p).score = p.score := rfl
  rcases boostStep_score now (steer E p) with h1 | ⟨h1, h2⟩
  · rw [h1, hs]; exact h
  · rw [h1]; linarith

theorem moveHead_body (E : Env K) (now : K) (p : Snake K) :
    (moveHead E now p).segments = p.segments := (moveHead_fields E now p).2.2.2.2.1

theorem createFoodItem_value (E : Env K) (hrand : ∀ n, 0 ≤ E.random n) (c : Nat) :
    0 ≤ (createFoodItem E c).value := by
  simp only [createFoodItem, jsFloor, FOOD_RADIUS_MAX, FOOD_RADIUS_MIN, Nat.cast_ofNat]
  have h0 : (0 : K) ≤ E.random (c + 8) * (10 - 5) + 5 := by
    have := hrand (c + 8)
    nlinarith
  exact_mod_cast Int.floor_nonneg.mpr h0

theorem dropFoodFromSnake_value (E : Env K) (w : World K) (s : Snake K) (k : Nat)
    (h : ∀ f ∈ w.foodItems, 0 ≤ f.value) :
    ∀ f ∈ (dropFoodFromSnake E w s k).foodItems, 0 ≤ f.value := by
  unfold dropFoodFromSnake
  cases s.segments[k]? with
  | none => exact h
  | some seg =>
    intro f hf
    simp only at hf
    rcases List.mem_append.mp hf with hf | hf
    · exact h f hf
    · obtain rfl : f = _ := by simpa using hf
      simp only
      exact le_trans zero_le_one (le_max_left _ _)

theorem eatFood_score (E : Env K) (st : EatState K) (h : ∀ f ∈ st.foodItems, 0 ≤ f.value) :
    st.player.score ≤ (eatFood E st).player.score := by
  obtain ⟨added, -, -, -, h4⟩ := eatLoop_spec E st.foodItems.length st (le_refl _)
  rw [eatFood, h4]
  simp only [List.take_length, le_add_iff_nonneg_right]
  apply List.sum_nonneg
  intro v hv
  obtain ⟨f, hf, rfl⟩ := List.mem_map.mp hv
  exact h f (List.mem_filter.mp hf).1

/-- C11: when `Math.random` returns non-negative numbers, in every reachable state every
snake has `score ≥ 200` (and every food item a non-negative value); the boost step leaves the
score as it is or subtracts `0.5`, the latter only from a score above 250, so it never takes a
score of at least 200 below 200. -/
theorem score_floor (E : Env K) (hrand : ∀ n, 0 ≤ E.random n) (w : World K)
    (h : Reachable E w) :
    (∀ p ∈ w.players, 200 ≤ p.score) ∧
    (∀ f ∈ w.foodItems, 0 ≤ f.value) ∧
    (∀ (now : K) (p : Snake K),
      ((boostStep now p).1.score = p.score ∨
        ((boostStep now p).1.score = p.score - 1 / 2 ∧ 250 < p.score)) ∧
      (200 ≤ p.score → 200 ≤ (boostStep now p).1.score)) := by
  have hinv := reachable_induct E (fun p => 200 ≤ p.score) (fun f => 0 ≤ f.value)
    (fun c id name b => by simp [createSnake])
    (createFoodItem_value E hrand)
    (dropFoodFromSnake_value E)
    (fun foods c p hp => by
      show (200 : K) ≤ (botThink E foods c p).1.score
      rw [(botThink_body E foods c p).1]; exact hp)
    (fun p angle b hp _ => hp)
    (fun now p hp _ => moveHead_score E now p hp)
    (fun now p foods c hp _ hf =>
      le_trans (moveHead_score E now p hp)
        (eatFood_score E ⟨grow E (updateSegments E (moveHead E now p)), foods, c⟩ hf))
    (fun p hp => hp)
    (fun o p ho hp _ => by
      have h0 : (0 : K) ≤ p.score / 2 := by
        have : (200 : K) ≤ p.score := hp
        linarith
      have h1 : (0 : K) ≤ jsFloor (p.score / 2) := by
        unfold jsFloor
        exact_mod_cast Int.floor_nonneg.mpr h0
      have : (200 : K) ≤ o.score := ho
      show (200 : K) ≤ o.score + jsFloor (p.score / 2)
      linarith)
    h
  refine ⟨hinv.1, hinv.2, fun now p => ⟨boostStep_score now p, fun hp => ?_⟩⟩
  rcases boostStep_score now p with h1 | ⟨h1, h2⟩
  · rw [h1]; exact hp
  · rw [h1]; linarith

/-- Witness of C11: the state after start-up and one tick. -/
theorem score_floor_witness :
    (∀ n, 0 ≤ sampleEnv.random n) ∧
    (∀ p ∈ (gameLoop sampleEnv (initGame sampleEnv)).players, 200 ≤ p.score) ∧
    (∀ f ∈ (gameLoop sampleEnv (initGame sampleEnv)).foodItems, 0 ≤ f.value) :=
  have h := score_floor sampleEnv (fun _ => le_refl 0) (gameLoop sampleEnv (initGame sampleEnv))
    (Reachable.tick Reachable.init)
  ⟨fun _ => le_refl 0, h.1, h.2.1⟩

theorem trimSegments_head (targetLength : K) (head : Point K) (segs : List (Point K)) :
    (trimSegments targetLength (head :: segs))[0]? = some head := by
  rw [trimSegments_eq_take]
  have : (2 : Int) ≤ max 2 ⌊targetLength⌋ := le_max_left _ _
  obtain ⟨m, hm⟩ : ∃ m, (max 2 ⌊targetLength⌋).toNat = m + 1 :=
    ⟨(max 2 ⌊targetLength⌋).toNat - 1, by omega⟩
  rw [hm, List.take_succ_cons]
  simp

theorem createSnake_head (E : Env K) (c : Nat) (id name : String) (b : Bool) :
    (createSnake E c id name b).segments[0]? =
      some { x := (createSnake E c id name b).x, y := (createSnake E c id name b).y } := by
  simp [createSnake, SNAKE_INITIAL_LENGTH, List.range_succ_eq_map]

/-- C14: in every reachable state every alive snake has a non-empty segment list whose first
segment is the head position; `createSnake` places segment 0 at the head, trimming keeps index 0
of the unshifted list, relaxation keeps index 0, and the segment update of a tick puts the head
at index 0. -/
theorem head_first (E : Env K) (w : World K) (h : Reachable E w) :
    (∀ p ∈ w.players, p.alive = true →
      p.segments ≠ [] ∧ p.segments[0]? = some { x := p.x, y := p.y }) ∧
    (∀ (c : Nat) (id name : String) (b : Bool),
      (createSnake E c id name b).segments[0]? =
        some { x := (createSnake E c id name b).x, y := (createSnake E c id name b).y }) ∧
    (∀ (targetLength : K) (head : Point K) (segs : List (Point K)),
      (trimSegments targetLength (head :: segs))[0]? = some head) ∧
    (∀ (sqrt : K → K) (segs : List (Point K)), (relax sqrt segs)[0]? = segs[0]?) ∧
    (∀ p : Snake K,
      (updateSegments E p).segments[0]? = some { x := p.x, y := p.y }) := by
  have hupd : ∀ p : Snake K,
      (updateSegments E p).segments[0]? = some { x := p.x, y := p.y } := by
    intro p
    simp only [updateSegments]
    rw [relax_head, trimSegments_head]
  have hinv := reachable_induct E HeadFirst (fun _ => True)
    (fun c id name b _ => createSnake_head E c id name b)
    (fun _ => trivial)
    (fun _ _ _ _ _ _ => trivial)
    (fun foods c p hp ha => by
      obtain ⟨-, e2, e3, e4⟩ := botThink_body E foods c p
      rw [e2, e3, e4]
      exact hp ((botThink_fields E foods c p).2.1 ▸ ha))
    (fun p angle b hp ha _ => hp ha)
    (fun now p _ _ ha => absurd ha (by simp))
    (fun now p foods c _ _ _ _ => by
      obtain ⟨-, -, -, -, e5, e6, e7⟩ := eatFood_player E
        ⟨grow E (updateSegments E (moveHead E now p)), foods, c⟩
      rw [e5, e6, e7]
      exact hupd (moveHead E now p))
    (fun p _ ha => absurd ha (by simp))
    (fun o p ho _ _ ha => ho ha)
    h
  refine ⟨fun p hp ha => ?_, createSnake_head E, trimSegments_head, relax_head, hupd⟩
  have h0 := hinv.1 p hp ha
  refine ⟨?_, h0⟩
  intro e
  rw [e] at h0
  simp at h0

/-- Witness of C14: the state after start-up and one tick. -/
theorem head_first_witness :
    Reachable sampleEnv (gameLoop sampleEnv (initGame sampleEnv)) ∧
    ∀ p ∈ (gameLoop sampleEnv (initGame sampleEnv)).players, p.alive = true →
      p.segments ≠ [] ∧ p.segments[0]? = some { x := p.x, y := p.y } :=
  ⟨Reachable.tick Reachable.init,
    (head_first sampleEnv (gameLoop sampleEnv (initGame sampleEnv))
      (Reachable.tick Reachable.init)).1⟩

end World

end Slither
